import Mathlib

/-!
# msm_compare: CPU vs GPU multi-scalar-multiplication benchmark harness

A shallow embedding of `main.go` (the benchmark harness) and of the benchmark loop of
`icicle_official_example.go`, followed by the properties proved about them.

Everything the harness does not own is an oracle carried by `World`:

* the monotonic clock (`time.Now`, `time.Since`) is a stream of readings,
* the random source of the curve library is a stream of scalars,
* every device allocation succeeds or fails as a stream says, every status-returning
  device call (conversion, MSM, free) reports a status taken from another stream, and
  the MSM call leaves a projective point in the host result buffer,
* the arithmetic of the two MSM engines and of the base field are functions.

The harness itself is translated statement by statement in state-passing style.
Go `int` and `time.Duration` values are integers, with the 64-bit wrap-around made
explicit where the source computes on them. A computation that stops in a panic is an
`Outcome.panic`: the run-time panics of the source (a slice length that `make`
rejects, a negative shift count, an integer division by zero) and the panics raised
inside the GPU library wrapper, which the source never recovers (a host slice that
cannot be given a device buffer, lengths that the MSM call rejects).
`World.device` records the device-facing calls in the order they are made and
`World.calls` records the entries into the two runners with their arguments; both
are observation logs and influence no computation.

Not modelled: console output (a results row is kept as the values it is rendered
from) and the exhaustion of host memory by a slice that `make` accepts.
-/

namespace MsmCompare

/-! ## Machine integers and durations -/

/-- Smallest `int64`. -/
def minInt64 : Int := -(2 ^ 63)

/-- Largest `int64`. -/
def maxInt64 : Int := 2 ^ 63 - 1

/-- Two's-complement reduction of an integer to `int64` (Go arithmetic wraps). -/
def wrapInt64 (x : Int) : Int := (x + 2 ^ 63) % 2 ^ 64 - 2 ^ 63

/-- Clamp to the `int64` range (`time.Since` saturates instead of wrapping). -/
def satInt64 (x : Int) : Int := max minInt64 (min x maxInt64)

/-- Go `time.Duration`: a signed 64-bit count of nanoseconds. -/
abbrev Duration := Int

/-- Go `time.Microsecond`. -/
def Microsecond : Duration := 1000

/-- Go `time.Millisecond`. -/
def Millisecond : Duration := 1000000

/-- Go `time.Second`. -/
def Second : Duration := 1000000000

/-- What stops a run. -/
inductive Panic where
  /-- Go run-time panic `integer divide by zero`. -/
  | divideByZero
  /-- Go run-time panic `makeslice: len out of range`. -/
  | makesliceLen
  /-- Go run-time panic `negative shift amount`. -/
  | negativeShift
  /-- Panic inside the wrapper method `CopyToDevice`: the destination buffer could not
  be allocated (an empty host slice, or an allocation that the device refuses). -/
  | deviceAllocation
  /-- Panic inside the wrapper function `Msm`: the numbers of scalars and of points are
  rejected by its length check. -/
  | msmLengths
  /-- The `panic(errorString)` of the official example after a failed MSM call. -/
  | msmFailed
deriving Repr, DecidableEq

/-- Result of a computation that may stop in a panic. -/
inductive Outcome (α : Type) where
  | ok (a : α)
  | panic (p : Panic)
deriving Repr, DecidableEq

/-- Go `a / b` on `int64`: truncated division, a run-time panic when `b = 0`. -/
def goDiv (a b : Int) : Outcome Int :=
  if b = 0 then Outcome.panic Panic.divideByZero else Outcome.ok (wrapInt64 (Int.tdiv a b))

/-- Go `1 << s` on `int` (64 bit): a run-time panic for a negative shift count. -/
def shiftLeftOne (s : Int) : Outcome Int :=
  if s < 0 then Outcome.panic Panic.negativeShift else Outcome.ok (wrapInt64 (2 ^ s.toNat))

/-- Largest allocation of the Go runtime on a 64-bit platform, in bytes. -/
def maxAlloc : Int := 2 ^ 48

/-- Size in bytes of a `fr.Element` (four 64-bit words). -/
def frElementBytes : Int := 32

/-- Size in bytes of a `bn254.G1Affine` (two base-field elements of four words). -/
def g1AffineBytes : Int := 64

/-- Go `make([]T, len)` for an element of `elemBytes` bytes, as far as its length
check goes: a run-time panic when `len` is negative or the slice would exceed
`maxAlloc` bytes; otherwise the length of the slice. -/
def makeSlice (elemBytes len : Int) : Outcome Nat :=
  if len < 0 ∨ maxAlloc < elemBytes * len then Outcome.panic Panic.makesliceLen
  else Outcome.ok len.toNat

/-! ## Data model -/

/-- Element of the scalar field (`fr.Element`), by its canonical representative. -/
abbrev Fr := Nat

/-- Element of the base field (`fp.Element`), by its canonical representative. -/
abbrev Fp := Nat

/-- Affine curve point (`bn254.G1Affine`). -/
structure G1Affine where
  X : Fp
  Y : Fp
deriving Repr, DecidableEq

/-- Projective curve point of the GPU library (`icicle_bn254.Projective`). -/
structure Projective where
  X : Nat
  Y : Nat
  Z : Nat
deriving Repr, DecidableEq

/-- MSM test configuration. -/
structure MSMTest where
  Degree : Int
  Size : Int
  Description : String
deriving Repr, DecidableEq

/-- Timing breakdown for GPU MSM; a fresh record has every field zero. -/
structure GPUTimingBreakdown where
  BasesH2D : Duration := 0
  ScalarsH2D : Duration := 0
  BasesMontgomery : Duration := 0
  ScalarsMontgomery : Duration := 0
  MSMCompute : Duration := 0
  ResultD2H : Duration := 0
  Total : Duration := 0
deriving Repr, DecidableEq

/-- Status code of the GPU runtime (`icicle_runtime.EIcicleError`). -/
inductive EIcicleError where
  | Success
  | Failure
deriving Repr, DecidableEq

/-- The device buffers named in the sources. -/
inductive Buffer where
  | basesDevice
  | scalarsDevice
  | pointsDevice
deriving Repr, DecidableEq

/-- An argument of the MSM call: a device buffer or a slice in host memory. -/
inductive Slice where
  | device (b : Buffer)
  | host
deriving Repr, DecidableEq

/-- Device-facing calls, as observed by the GPU library. -/
inductive DeviceEvent where
  | malloc (b : Buffer) (len : Nat)
  | copyToDevice (b : Buffer) (len : Nat)
  | affineFromMontgomery (b : Buffer)
  | fromMontgomery (b : Buffer)
  | msm (scalars points : Slice)
  | free (b : Buffer)
deriving Repr, DecidableEq

/-- Entry into one of the two runners, with the arguments it received. -/
inductive Call where
  | runCPUMSM (bases : List G1Affine) (scalars : List Fr)
  | runGPUMSM (bases : List G1Affine) (scalars : List Fr) (measureTiming : Bool)
deriving Repr, DecidableEq

/-- Everything outside the harness, with the observation logs. -/
structure World where
  /-- Successive readings of the monotonic clock, in nanoseconds. -/
  clock : Nat → Int
  /-- Number of clock readings taken so far. -/
  tick : Nat
  /-- Successive outputs of `SetRandom`. -/
  rand : Nat → Fr
  /-- Number of random scalars drawn so far. -/
  drawn : Nat
  /-- Whether the successive device allocations succeed. -/
  alloc : Nat → EIcicleError
  /-- Number of device allocations requested so far. -/
  allocs : Nat
  /-- Status reported by the successive status-returning device calls (conversions,
  MSM calls, frees). -/
  status : Nat → EIcicleError
  /-- Content of the host result buffer left by a device-facing MSM call. -/
  msmOut : Nat → Projective
  /-- Number of status-returning device calls made so far. -/
  ops : Nat
  /-- Whether the length check of the wrapper function `Msm` lets through a call with
  that number of scalars and that, different, number of points. -/
  msmAccepts : Nat → Nat → Bool
  /-- Status of `LoadBackendFromEnvOrDefault`. -/
  backend : EIcicleError
  /-- Scalar multiplication of the group generator (`ScalarMultiplication(&g1Gen, s)`). -/
  generatorMul : Fr → G1Affine
  /-- CPU multi-scalar multiplication (`MultiExp`). -/
  multiExp : List G1Affine → List Fr → G1Affine
  /-- Reading of a coordinate of the GPU library into a base-field element. -/
  fpElement : Nat → Fp
  /-- Base-field inversion (`Inverse`, which maps zero to zero). -/
  fpInverse : Fp → Fp
  /-- Base-field multiplication (`Mul`). -/
  fpMul : Fp → Fp → Fp
  /-- Device-facing calls made so far, oldest first. -/
  device : List DeviceEvent
  /-- Runner invocations made so far, oldest first. -/
  calls : List Call

/-! ## Collaborators -/

/-- Reading of the clock by `time.Now()`; a `Time` is kept as its monotonic reading. -/
def timeNow (w : World) : Int × World :=
  (w.clock w.tick, { w with tick := w.tick + 1 })

/-- Elapsed time by `time.Since(start)`: the difference of the monotonic readings,
saturated to the `int64` range. -/
def timeSince (start : Int) (w : World) : Duration × World :=
  (satInt64 (w.clock w.tick - start), { w with tick := w.tick + 1 })

/-- One status-returning device call: it is logged and reports the next status. -/
def deviceCall (ev : DeviceEvent) (w : World) : EIcicleError × World :=
  (w.status w.ops, { w with ops := w.ops + 1, device := w.device ++ [ev] })

/-- Wrapper method `CopyToDevice(&dst, true)` on a host slice of `len` elements: it
allocates the destination and copies into it. It hands no status back; when the host
slice is empty or the allocation fails there is no destination to copy into and the
wrapper panics. Every call in the sources asks for the allocation. -/
def copyToDevice (dst : Buffer) (len : Nat) (w : World) : Outcome Unit × World :=
  if len = 0 then (Outcome.panic Panic.deviceAllocation, w)
  else if w.alloc w.allocs ≠ EIcicleError.Success then
    (Outcome.panic Panic.deviceAllocation, { w with allocs := w.allocs + 1 })
  else
    (Outcome.ok (), { w with allocs := w.allocs + 1,
                             device := w.device ++ [DeviceEvent.malloc dst len,
                               DeviceEvent.copyToDevice dst len] })

/-- Library call `icicle_bn254.AffineFromMontgomery`. -/
def affineFromMontgomery (b : Buffer) (w : World) : EIcicleError × World :=
  deviceCall (DeviceEvent.affineFromMontgomery b) w

/-- Library call `icicle_bn254.FromMontgomery`. -/
def fromMontgomery (b : Buffer) (w : World) : EIcicleError × World :=
  deviceCall (DeviceEvent.fromMontgomery b) w

/-- Wrapper function `Msm(scalars, points, &cfg, result)` on `ns` scalars and `np`
points with a one-element host result slice. Its length check comes first and panics
on lengths it rejects; equal lengths pass it. The device call then reports a status
and leaves a point in the result slice. -/
def msm (scalars points : Slice) (ns np : Nat) (w : World) :
    Outcome (EIcicleError × Projective) × World :=
  if ns = np ∨ w.msmAccepts ns np = true then
    (Outcome.ok (w.status w.ops, w.msmOut w.ops),
      { w with ops := w.ops + 1, device := w.device ++ [DeviceEvent.msm scalars points] })
  else (Outcome.panic Panic.msmLengths, w)

/-- Device slice method `Free()`. -/
def free (b : Buffer) (w : World) : EIcicleError × World :=
  deviceCall (DeviceEvent.free b) w

/-! ## `main.go` -/

/-- Source function `projectiveToGnarkAffine`. -/
def projectiveToGnarkAffine (w : World) (p : Projective) : G1Affine :=
  let px := w.fpElement p.X
  let py := w.fpElement p.Y
  let pz := w.fpElement p.Z
  let zInv := w.fpInverse pz
  let x := w.fpMul px zInv
  let y := w.fpMul py zInv
  { X := x, Y := y }

/-- Source function `runCPUMSM`. -/
def runCPUMSM (bases : List G1Affine) (scalars : List Fr) (w : World) : G1Affine × World :=
  let w := { w with calls := w.calls ++ [Call.runCPUMSM bases scalars] }
  (w.multiExp bases scalars, w)

/-- Source function `runGPUMSM`. The status of every status-returning device call is
dropped, as in the source; a panic of the wrapper ends the run where it is raised. -/
def runGPUMSM (bases : List G1Affine) (scalars : List Fr) (measureTiming : Bool) (w : World) :
    Outcome (G1Affine × Option GPUTimingBreakdown) × World :=
  let w := { w with calls := w.calls ++ [Call.runGPUMSM bases scalars measureTiming] }
  let breakdown : Option GPUTimingBreakdown := if measureTiming then some {} else none
  let (totalStart, w) := timeNow w
  -- Copy bases to device
  let basesCopied : Outcome (Option GPUTimingBreakdown) × World :=
    if measureTiming then
      let (start, w) := timeNow w
      match copyToDevice Buffer.basesDevice bases.length w with
      | (Outcome.panic p, w) => (Outcome.panic p, w)
      | (Outcome.ok _, w) =>
        let (d, w) := timeSince start w
        (Outcome.ok (breakdown.map (fun b => { b with BasesH2D := d })), w)
    else
      match copyToDevice Buffer.basesDevice bases.length w with
      | (Outcome.panic p, w) => (Outcome.panic p, w)
      | (Outcome.ok _, w) => (Outcome.ok breakdown, w)
  match basesCopied with
  | (Outcome.panic p, w) => (Outcome.panic p, w)
  | (Outcome.ok breakdown, w) =>
  -- Copy scalars to device
  let scalarsCopied : Outcome (Option GPUTimingBreakdown) × World :=
    if measureTiming then
      let (start, w) := timeNow w
      match copyToDevice Buffer.scalarsDevice scalars.length w with
      | (Outcome.panic p, w) => (Outcome.panic p, w)
      | (Outcome.ok _, w) =>
        let (d, w) := timeSince start w
        (Outcome.ok (breakdown.map (fun b => { b with ScalarsH2D := d })), w)
    else
      match copyToDevice Buffer.scalarsDevice scalars.length w with
      | (Outcome.panic p, w) => (Outcome.panic p, w)
      | (Outcome.ok _, w) => (Outcome.ok breakdown, w)
  match scalarsCopied with
  | (Outcome.panic p, w) => (Outcome.panic p, w)
  | (Outcome.ok breakdown, w) =>
  -- Convert bases from Montgomery form
  let (breakdown, w) :=
    if measureTiming then
      let (start, w) := timeNow w
      let (_, w) := affineFromMontgomery Buffer.basesDevice w
      let (d, w) := timeSince start w
      (breakdown.map (fun b => { b with BasesMontgomery := d }), w)
    else
      let (_, w) := affineFromMontgomery Buffer.basesDevice w
      (breakdown, w)
  -- Convert scalars from Montgomery form
  let (breakdown, w) :=
    if measureTiming then
      let (start, w) := timeNow w
      let (_, w) := fromMontgomery Buffer.scalarsDevice w
      let (d, w) := timeSince start w
      (breakdown.map (fun b => { b with ScalarsMontgomery := d }), w)
    else
      let (_, w) := fromMontgomery Buffer.scalarsDevice w
      (breakdown, w)
  -- Configure and run MSM
  let msmDone : Outcome (Projective × Option GPUTimingBreakdown) × World :=
    if measureTiming then
      let (start, w) := timeNow w
      match msm (Slice.device Buffer.scalarsDevice) (Slice.device Buffer.basesDevice)
          scalars.length bases.length w with
      | (Outcome.panic p, w) => (Outcome.panic p, w)
      | (Outcome.ok r, w) =>
        let (d, w) := timeSince start w
        (Outcome.ok (r.2, breakdown.map (fun b => { b with MSMCompute := d })), w)
    else
      match msm (Slice.device Buffer.scalarsDevice) (Slice.device Buffer.basesDevice)
          scalars.length bases.length w with
      | (Outcome.panic p, w) => (Outcome.panic p, w)
      | (Outcome.ok r, w) => (Outcome.ok (r.2, breakdown), w)
  match msmDone with
  | (Outcome.panic p, w) => (Outcome.panic p, w)
  | (Outcome.ok (resultIcicle, breakdown), w) =>
  -- Result is already in host memory
  let breakdown :=
    if measureTiming then breakdown.map (fun b => { b with ResultD2H := 0 }) else breakdown
  -- Free device memory
  let (_, w) := free Buffer.basesDevice w
  let (_, w) := free Buffer.scalarsDevice w
  let (breakdown, w) :=
    if measureTiming then
      let (d, w) := timeSince totalStart w
      (breakdown.map (fun b => { b with Total := d }), w)
    else (breakdown, w)
  -- Convert result back to gnark format
  (Outcome.ok (projectiveToGnarkAffine w resultIcicle, breakdown), w)

/-- The loop `for i := 0; i < test.Size; i++ { scalars[i].SetRandom() }`, for `n`
remaining elements. -/
def randomScalars : Nat → World → List Fr × World
  | 0, w => ([], w)
  | n + 1, w =>
    let s := w.rand w.drawn
    let w := { w with drawn := w.drawn + 1 }
    let (rest, w) := randomScalars n w
    (s :: rest, w)

/-- The loop that fills `bases`: each base is the generator multiplied by a fresh
random scalar. -/
def randomBases : Nat → World → List G1Affine × World
  | 0, w => ([], w)
  | n + 1, w =>
    let scalar := w.rand w.drawn
    let w := { w with drawn := w.drawn + 1 }
    let base := w.generatorMul scalar
    let (rest, w) := randomBases n w
    (base :: rest, w)

/-- The CPU benchmark loop of `runMSMTest`, for `n` remaining repetitions; the loop
variables are `cpuTotal` and `cpu_res`. -/
def cpuLoop (bases : List G1Affine) (scalars : List Fr) :
    Nat → Duration → G1Affine → World → (Duration × G1Affine) × World
  | 0, cpuTotal, cpu_res, w => ((cpuTotal, cpu_res), w)
  | n + 1, cpuTotal, _, w =>
    let (start, w) := timeNow w
    let (cpu_res, w) := runCPUMSM bases scalars w
    let (d, w) := timeSince start w
    cpuLoop bases scalars n (wrapInt64 (cpuTotal + d)) cpu_res w

/-- Loop variables of the GPU benchmark loop of `runMSMTest`. -/
structure GPULoopVars where
  gpuTotal : Duration
  breakdown : Option GPUTimingBreakdown
  gpu_res : G1Affine
  bd : Option GPUTimingBreakdown

/-- The GPU benchmark loop of `runMSMTest`, for `n` remaining repetitions, `i` being
the loop counter. -/
def gpuLoop (bases : List G1Affine) (scalars : List Fr) (detailed : Bool) :
    Nat → Nat → GPULoopVars → World → Outcome GPULoopVars × World
  | 0, _, v, w => (Outcome.ok v, w)
  | n + 1, i, v, w =>
    let (start, w) := timeNow w
    match runGPUMSM bases scalars (detailed && i == 0) w with
    | (Outcome.panic p, w) => (Outcome.panic p, w)
    | (Outcome.ok r, w) =>
      let (d, w) := timeSince start w
      let gpuTotal := wrapInt64 (v.gpuTotal + d)
      let breakdown := if detailed && i == 0 then r.2 else v.breakdown
      gpuLoop bases scalars detailed n (i + 1)
        { gpuTotal := gpuTotal, breakdown := breakdown, gpu_res := r.1, bd := r.2 } w

/-- Source function `runMSMTest`. The two `make` calls come first and panic on a
length they reject; a panic of the wrapper inside `runGPUMSM` ends the run; the two
averaging divisions panic on a zero divisor; a loop `for i := 0; i < runs; i++` runs
`runs.toNat` times. -/
def runMSMTest (test : MSMTest) (runs : Int) (detailed : Bool) (w : World) :
    Outcome (Duration × Duration × Option GPUTimingBreakdown) × World :=
  -- Generate random scalars and bases
  match makeSlice frElementBytes test.Size with
  | Outcome.panic p => (Outcome.panic p, w)
  | Outcome.ok scalarsLen =>
  match makeSlice g1AffineBytes test.Size with
  | Outcome.panic p => (Outcome.panic p, w)
  | Outcome.ok basesLen =>
  let (scalars, w) := randomScalars scalarsLen w
  let (bases, w) := randomBases basesLen w
  -- Warm up
  let (_, w) := runCPUMSM bases scalars w
  match runGPUMSM bases scalars false w with
  | (Outcome.panic p, w) => (Outcome.panic p, w)
  | (Outcome.ok _, w) =>
  -- CPU benchmark
  let (cpu, w) := cpuLoop bases scalars runs.toNat 0 { X := 0, Y := 0 } w
  match goDiv cpu.1 runs with
  | Outcome.panic p => (Outcome.panic p, w)
  | Outcome.ok cpuAvg =>
    -- GPU benchmark
    match gpuLoop bases scalars detailed runs.toNat 0
      { gpuTotal := 0, breakdown := none, gpu_res := { X := 0, Y := 0 }, bd := none } w with
    | (Outcome.panic p, w) => (Outcome.panic p, w)
    | (Outcome.ok gpu, w) =>
      match goDiv gpu.gpuTotal runs with
      | Outcome.panic p => (Outcome.panic p, w)
      | Outcome.ok gpuAvg => (Outcome.ok (cpuAvg, gpuAvg, gpu.breakdown), w)

/-- The test-generation loop of `main` (`for degree := ...; degree <= *maxDegree;
degree++`), for `n` remaining degrees. -/
def generateTests : Nat → Int → List MSMTest → Outcome (List MSMTest)
  | 0, _, tests => Outcome.ok tests
  | n + 1, degree, tests =>
    match shiftLeftOne degree with
    | Outcome.panic p => Outcome.panic p
    | Outcome.ok size =>
      generateTests n (degree + 1)
        (tests ++ [{ Degree := degree, Size := size, Description := "2^" ++ toString degree }])

/-- One line of the results table before rendering: the test and what `runMSMTest`
returned for it. The rendering (`formatDuration`, the speedup column and the
percentages of the breakdown, computed in `float64`) is console output. -/
structure Row where
  test : MSMTest
  cpuTime : Duration
  gpuTime : Duration
  breakdown : Option GPUTimingBreakdown
deriving Repr, DecidableEq

/-- The results loop of `main` (`for _, test := range tests`); `rows` are the table
lines printed so far. -/
def resultLoop (runs : Int) (detailed : Bool) :
    List MSMTest → List Row → World → Outcome (List Row) × World
  | [], rows, w => (Outcome.ok rows, w)
  | test :: rest, rows, w =>
    match runMSMTest test runs detailed w with
    | (Outcome.panic p, w) => (Outcome.panic p, w)
    | (Outcome.ok (cpuTime, gpuTime, breakdown), w) =>
      resultLoop runs detailed rest
        (rows ++ [{ test := test, cpuTime := cpuTime, gpuTime := gpuTime,
                    breakdown := breakdown }]) w

/-- Source function `main`, from the parsed flags to the lines of the results table.
The degree loop runs `maxDegree - minDegree + 1` times (none when that is not
positive), which is what the source does for every `maxDegree` below the largest
`int`. -/
def main (minDegree maxDegree runs : Int) (detailed : Bool) (w : World) :
    Outcome (List Row) × World :=
  -- Initialize ICICLE
  if w.backend ≠ EIcicleError.Success then (Outcome.ok [], w) else
  -- Generate test cases
  match generateTests (maxDegree - minDegree + 1).toNat minDegree [] with
  | Outcome.panic p => (Outcome.panic p, w)
  | Outcome.ok tests => resultLoop runs detailed tests [] w

/-- Rendering by `%.2f` of `float64(k)` for an integer `k` of magnitude below `2^53`
(such a conversion is exact): the decimal digits of `k` followed by two zero decimals. -/
def fixed2OfInt (k : Int) : String := toString k ++ ".00"

/-- Source function `formatDuration`. The accessors `Microseconds()` and
`Milliseconds()` return the truncated integer count of the unit; the unit suffixes are
the characters of the source literals. The seconds branch formats the floating-point
value `d.Seconds()`; its text is the parameter `secondsText`. -/
def formatDuration (secondsText : Duration → String) (d : Duration) : String :=
  if d < Microsecond then toString d ++ " ns"
  else if d < Millisecond then fixed2OfInt (Int.tdiv d 1000) ++ " Î¼s"
  else if d < Second then fixed2OfInt (Int.tdiv d 1000000) ++ " ms"
  else secondsText d

end MsmCompare

/-! ## `icicle_official_example.go` -/

namespace OfficialExample

open MsmCompare

/-- Durations measured by one benchmark iteration. -/
structure RunTimes where
  runDuration : Duration
  copyDuration : Duration
  msmDuration : Duration
deriving Repr, DecidableEq

/-- Body of the benchmark loop of `main` for host slices of `size` scalars and `size`
points. A panic of the wrapper ends the run, and so does a failed MSM call. -/
def benchIteration (size : Nat) (w : World) : Outcome RunTimes × World :=
  let (runStart, w) := timeNow w
  -- copy scalars to device memory explicitly
  let (copyStart, w) := timeNow w
  match copyToDevice Buffer.scalarsDevice size w with
  | (Outcome.panic p, w) => (Outcome.panic p, w)
  | (Outcome.ok _, w) =>
  match copyToDevice Buffer.pointsDevice size w with
  | (Outcome.panic p, w) => (Outcome.panic p, w)
  | (Outcome.ok _, w) =>
  let (copyDuration, w) := timeSince copyStart w
  -- execute bn254 MSM on device
  let (msmStart, w) := timeNow w
  match msm (Slice.device Buffer.scalarsDevice) (Slice.device Buffer.pointsDevice)
      size size w with
  | (Outcome.panic p, w) => (Outcome.panic p, w)
  | (Outcome.ok r, w) =>
  let (msmDuration, w) := timeSince msmStart w
  -- Check for errors
  if r.1 ≠ EIcicleError.Success then (Outcome.panic Panic.msmFailed, w) else
  -- free explicitly allocated device memory
  let (_, w) := free Buffer.scalarsDevice w
  let (runDuration, w) := timeSince runStart w
  (Outcome.ok { runDuration := runDuration, copyDuration := copyDuration,
                msmDuration := msmDuration }, w)

/-- The benchmark loop of `main`, for `n` remaining iterations; the loop variables are
`totalTime`, `copyTime` and `msmTime`. -/
def benchLoop (size : Nat) : Nat → RunTimes → World → Outcome RunTimes × World
  | 0, acc, w => (Outcome.ok acc, w)
  | n + 1, acc, w =>
    match benchIteration size w with
    | (Outcome.panic p, w) => (Outcome.panic p, w)
    | (Outcome.ok t, w) =>
      benchLoop size n
        { runDuration := wrapInt64 (acc.runDuration + t.runDuration),
          copyDuration := wrapInt64 (acc.copyDuration + t.copyDuration),
          msmDuration := wrapInt64 (acc.msmDuration + t.msmDuration) } w

end OfficialExample

/-! ## Vocabulary of the properties -/

namespace MsmCompare

/-- The clock is monotonic: its readings are non-negative `int64` nanosecond counts
and successive readings never decrease. -/
def MonotonicClock (clock : Nat → Int) : Prop :=
  (∀ k, 0 ≤ clock k ∧ clock k ≤ maxInt64) ∧ ∀ k, clock k ≤ clock (k + 1)

/-- The device-facing calls of one run of `runGPUMSM` on `nb` bases and `ns` scalars. -/
def deviceTrace (nb ns : Nat) : List DeviceEvent :=
  [DeviceEvent.malloc Buffer.basesDevice nb, DeviceEvent.copyToDevice Buffer.basesDevice nb,
   DeviceEvent.malloc Buffer.scalarsDevice ns, DeviceEvent.copyToDevice Buffer.scalarsDevice ns,
   DeviceEvent.affineFromMontgomery Buffer.basesDevice,
   DeviceEvent.fromMontgomery Buffer.scalarsDevice,
   DeviceEvent.msm (Slice.device Buffer.scalarsDevice) (Slice.device Buffer.basesDevice),
   DeviceEvent.free Buffer.basesDevice, DeviceEvent.free Buffer.scalarsDevice]

/-- The buffers allocated by a sequence of device-facing calls, in order. -/
def allocated : List DeviceEvent → List Buffer
  | [] => []
  | DeviceEvent.malloc b _ :: rest => b :: allocated rest
  | _ :: rest => allocated rest

/-- The buffers freed by a sequence of device-facing calls, in order. -/
def freed : List DeviceEvent → List Buffer
  | [] => []
  | DeviceEvent.free b :: rest => b :: freed rest
  | _ :: rest => freed rest

/-- Whether a logged call is an entry into `runCPUMSM`. -/
def Call.isCPU : Call → Bool
  | Call.runCPUMSM _ _ => true
  | Call.runGPUMSM _ _ _ => false

/-- Whether a logged call is an entry into `runGPUMSM`. -/
def Call.isGPU : Call → Bool
  | Call.runCPUMSM _ _ => false
  | Call.runGPUMSM _ _ _ => true

/-- The scalars `runMSMTest` generates for `n` elements when entered in world `w`: the
next `n` outputs of the random source. -/
def sampleScalars (w : World) (n : Nat) : List Fr :=
  (List.range n).map (fun i => w.rand (w.drawn + i))

/-- The bases `runMSMTest` generates for `n` elements when entered in world `w`: the
generator multiplied by each of the `n` outputs of the random source that follow those
used for the scalars. -/
def sampleBases (w : World) (n : Nat) : List G1Affine :=
  (List.range n).map (fun i => w.generatorMul (w.rand (w.drawn + n + i)))

/-- The world in which the timed repetitions of `runMSMTest` start: the samples are
drawn and the warm-up pass of both runners is done (the warm-up run of `runGPUMSM`
has taken one clock reading, allocated its two buffers and made its device-facing
calls). -/
def afterWarmUp (w : World) (n : Nat) : World :=
  { w with drawn := w.drawn + 2 * n, tick := w.tick + 1, allocs := w.allocs + 2,
           ops := w.ops + 5, device := w.device ++ deviceTrace n n,
           calls := w.calls ++ [Call.runCPUMSM (sampleBases w n) (sampleScalars w n),
             Call.runGPUMSM (sampleBases w n) (sampleScalars w n) false] }

/-- A call of `runGPUMSM` on these lists in world `w` gets through the wrapper: both
host slices are non-empty, the next two device allocations succeed and the length
check of the MSM call passes. -/
def GPUReady (bases : List G1Affine) (scalars : List Fr) (w : World) : Prop :=
  bases.length ≠ 0 ∧ w.alloc w.allocs = EIcicleError.Success ∧
  scalars.length ≠ 0 ∧ w.alloc (w.allocs + 1) = EIcicleError.Success ∧
  (scalars.length = bases.length ∨ w.msmAccepts scalars.length bases.length = true)

/-- The next `n` calls of `runGPUMSM` on these lists, from world `w` on, all get
through the wrapper (each of them requests two allocations). -/
def LoopReady (bases : List G1Affine) (scalars : List Fr) (w : World) (n : Nat) : Prop :=
  ∀ j, j < n → GPUReady bases scalars { w with allocs := w.allocs + 2 * j }

/-- Every device allocation succeeds. -/
def AllocationsSucceed (w : World) : Prop :=
  ∀ k, w.alloc k = EIcicleError.Success

/-- The breakdown a run of `runGPUMSM` entered in world `w` measures when it gets
through the wrapper: the first reading starts `Total`, each of the five stages lies
between the next two readings, and the last reading ends `Total`. -/
def measuredBreakdown (w : World) : GPUTimingBreakdown :=
  { BasesH2D := satInt64 (w.clock (w.tick + 2) - w.clock (w.tick + 1)),
    ScalarsH2D := satInt64 (w.clock (w.tick + 4) - w.clock (w.tick + 3)),
    BasesMontgomery := satInt64 (w.clock (w.tick + 6) - w.clock (w.tick + 5)),
    ScalarsMontgomery := satInt64 (w.clock (w.tick + 8) - w.clock (w.tick + 7)),
    MSMCompute := satInt64 (w.clock (w.tick + 10) - w.clock (w.tick + 9)),
    ResultD2H := 0,
    Total := satInt64 (w.clock (w.tick + 11) - w.clock w.tick) }

/-- The world a run of `runGPUMSM` that gets through the wrapper leaves behind. -/
def afterGPURun (bases : List G1Affine) (scalars : List Fr) (measureTiming : Bool)
    (w : World) : World :=
  { w with tick := w.tick + (if measureTiming then 12 else 1), allocs := w.allocs + 2,
           ops := w.ops + 5,
           device := w.device ++ deviceTrace bases.length scalars.length,
           calls := w.calls ++ [Call.runGPUMSM bases scalars measureTiming] }

/-- Duration measured for the timed CPU repetition `i` (from 0) of a `runMSMTest`
entered in world `w`. The warm-up takes the clock reading number `w.tick`; repetition
`i` then reads the clock just before and just after its call of `runCPUMSM`. -/
def cpuRepDuration (w : World) (i : Nat) : Int :=
  w.clock (w.tick + 1 + 2 * i + 1) - w.clock (w.tick + 1 + 2 * i)

/-- Number of the clock reading that starts the timed GPU repetition `i` (from 0) of a
`runMSMTest` with `runs` repetitions entered in world `w`: the CPU loop has taken
`2 * runs` readings, a repetition without breakdown takes three readings and the
first repetition takes eleven more when the breakdown is measured. -/
def gpuRepStart (w : World) (runs : Nat) (detailed : Bool) (i : Nat) : Nat :=
  w.tick + 1 + 2 * runs + 3 * i + (if detailed && i != 0 then 11 else 0)

/-- Duration measured for the timed GPU repetition `i` (from 0): from the reading that
starts it to the reading taken right after its call of `runGPUMSM` returns. -/
def gpuRepDuration (w : World) (runs : Nat) (detailed : Bool) (i : Nat) : Int :=
  w.clock (gpuRepStart w runs detailed i + (if detailed && i == 0 then 13 else 2)) -
    w.clock (gpuRepStart w runs detailed i)

/-- Sum of the durations of the `runs` timed CPU repetitions. -/
def timedCPUTotal (w : World) (runs : Nat) : Int :=
  ∑ i in Finset.range runs, cpuRepDuration w i

/-- Sum of the durations of the `runs` timed GPU repetitions. -/
def timedGPUTotal (w : World) (runs : Nat) (detailed : Bool) : Int :=
  ∑ i in Finset.range runs, gpuRepDuration w runs detailed i

/-- The test of exponent `d`, with the element count `2^d`. -/
def testOfDegree (d : Int) : MSMTest :=
  { Degree := d, Size := 2 ^ d.toNat, Description := "2^" ++ toString d }

/-- The world in which the first timed GPU repetition of `runMSMTest` calls
`runGPUMSM`: after the warm-up, the `runs` CPU repetitions and the reading of the clock
that starts the repetition. -/
def firstTimedGPUWorld (w : World) (n runs : Nat) : World :=
  { afterWarmUp w n with
    tick := w.tick + 2 + 2 * runs,
    calls := (afterWarmUp w n).calls ++
      List.replicate runs (Call.runCPUMSM (sampleBases w n) (sampleScalars w n)) }

/-- The world a `runMSMTest` of `n` elements and `runs ≥ 1` repetitions leaves behind
when it returns. -/
def afterTimedRuns (w : World) (n runs : Nat) (detailed : Bool) : World :=
  { w with
    drawn := w.drawn + 2 * n,
    tick := w.tick + 1 + 2 * runs + (if detailed then 14 else 3) + 3 * (runs - 1),
    allocs := w.allocs + 2 + 2 * runs,
    ops := w.ops + 5 + 5 * runs,
    device := w.device ++ deviceTrace n n ++ (List.replicate runs (deviceTrace n n)).flatten,
    calls := w.calls ++
      ([Call.runCPUMSM (sampleBases w n) (sampleScalars w n),
        Call.runGPUMSM (sampleBases w n) (sampleScalars w n) false] ++
       List.replicate runs (Call.runCPUMSM (sampleBases w n) (sampleScalars w n)) ++
       (Call.runGPUMSM (sampleBases w n) (sampleScalars w n) detailed ::
         List.replicate (runs - 1)
           (Call.runGPUMSM (sampleBases w n) (sampleScalars w n) false))) }

/-- A world for evaluating the definitions: the clock advances by 100 ns per reading
for the first thousand readings, every device allocation succeeds and every device
call reports success. The curve and field arithmetic are stand-ins, on which no
property below depends. -/
def sampleWorld : World :=
  { clock := fun k => 100 * ((min k 1000 : Nat) : Int), tick := 0,
    rand := fun k => k + 1, drawn := 0,
    alloc := fun _ => EIcicleError.Success, allocs := 0,
    status := fun _ => EIcicleError.Success, msmOut := fun _ => { X := 3, Y := 4, Z := 1 },
    ops := 0, msmAccepts := fun _ _ => false, backend := EIcicleError.Success,
    generatorMul := fun s => { X := s, Y := s + 1 },
    multiExp := fun _ _ => { X := 3, Y := 4 },
    fpElement := fun n => n, fpInverse := fun z => z, fpMul := fun a b => a * b,
    device := [], calls := [] }

/-- The world `sampleWorld` in which every status-returning device call (conversion,
MSM call, free) reports failure and the MSM call leaves the zero-initialised host
result buffer untouched, while every device allocation succeeds. -/
def statusFailureWorld : World :=
  { sampleWorld with
    status := fun _ => EIcicleError.Failure, msmOut := fun _ => { X := 0, Y := 0, Z := 0 } }

/-- The world `sampleWorld` in which the second device allocation fails. -/
def allocationFailureWorld : World :=
  { sampleWorld with
    alloc := fun k => if k = 1 then EIcicleError.Failure else EIcicleError.Success }

end MsmCompare

/-! ## Auxiliary lemmas -/

namespace MsmCompare

theorem wrapInt64_of_range {x : Int} (h0 : -(2 ^ 63) ≤ x) (h1 : x < 2 ^ 63) : wrapInt64 x = x := by
  unfold wrapInt64
  omega

theorem runGPUMSM_of_ready (bases : List G1Affine) (scalars : List Fr) (mt : Bool) (w : World)
    (h : GPUReady bases scalars w) :
    runGPUMSM bases scalars mt w =
      (Outcome.ok (projectiveToGnarkAffine w (w.msmOut (w.ops + 2)),
          if mt then some (measuredBreakdown w) else none),
        afterGPURun bases scalars mt w) := by
  obtain ⟨h1, h2, h3, h4, h5⟩ := h
  cases mt <;>
    simp [runGPUMSM, timeNow, timeSince, copyToDevice, affineFromMontgomery, fromMontgomery,
      msm, free, deviceCall, deviceTrace, measuredBreakdown, afterGPURun, h1, h2, h3, h4, h5,
      projectiveToGnarkAffine]

theorem runGPUMSM_of_not_ready (bases : List G1Affine) (scalars : List Fr) (mt : Bool)
    (w : World) (h : ¬ GPUReady bases scalars w) :
    ∃ p evs, (runGPUMSM bases scalars mt w).1 = Outcome.panic p ∧
      (p = Panic.deviceAllocation ∨ p = Panic.msmLengths) ∧
      (runGPUMSM bases scalars mt w).2.device = w.device ++ evs ∧ freed evs = [] ∧
      (p = Panic.msmLengths →
        allocated evs = [Buffer.basesDevice, Buffer.scalarsDevice]) ∧
      (runGPUMSM bases scalars mt w).2.calls =
        w.calls ++ [Call.runGPUMSM bases scalars mt] ∧
      (scalars.length = bases.length → p = Panic.deviceAllocation) := by
  by_cases h1 : bases.length = 0
  · refine ⟨Panic.deviceAllocation, [], ?_, Or.inl rfl, ?_, rfl, by simp, ?_, fun _ => rfl⟩ <;>
      cases mt <;> simp [runGPUMSM, timeNow, timeSince, copyToDevice, h1]
  by_cases h2 : w.alloc w.allocs = EIcicleError.Success
  swap
  · refine ⟨Panic.deviceAllocation, [], ?_, Or.inl rfl, ?_, rfl, by simp, ?_, fun _ => rfl⟩ <;>
      cases mt <;> simp [runGPUMSM, timeNow, timeSince, copyToDevice, h1, h2]
  by_cases h3 : scalars.length = 0
  · refine ⟨Panic.deviceAllocation, [DeviceEvent.malloc Buffer.basesDevice bases.length,
        DeviceEvent.copyToDevice Buffer.basesDevice bases.length], ?_, Or.inl rfl, ?_, rfl,
        by simp, ?_, fun _ => rfl⟩ <;>
      cases mt <;> simp [runGPUMSM, timeNow, timeSince, copyToDevice, h1, h2, h3]
  by_cases h4 : w.alloc (w.allocs + 1) = EIcicleError.Success
  swap
  · refine ⟨Panic.deviceAllocation, [DeviceEvent.malloc Buffer.basesDevice bases.length,
        DeviceEvent.copyToDevice Buffer.basesDevice bases.length], ?_, Or.inl rfl, ?_, rfl,
        by simp, ?_, fun _ => rfl⟩ <;>
      cases mt <;> simp [runGPUMSM, timeNow, timeSince, copyToDevice, h1, h2, h3, h4]
  have h5 : ¬ (scalars.length = bases.length ∨
      w.msmAccepts scalars.length bases.length = true) := fun h5 => h ⟨h1, h2, h3, h4, h5⟩
  have h5a : ¬ scalars.length = bases.length := fun e => h5 (Or.inl e)
  have h5b : w.msmAccepts scalars.length bases.length = false := by
    cases hb : w.msmAccepts scalars.length bases.length
    · rfl
    · exact absurd (Or.inr hb) h5
  refine ⟨Panic.msmLengths, [DeviceEvent.malloc Buffer.basesDevice bases.length,
      DeviceEvent.copyToDevice Buffer.basesDevice bases.length,
      DeviceEvent.malloc Buffer.scalarsDevice scalars.length,
      DeviceEvent.copyToDevice Buffer.scalarsDevice scalars.length,
      DeviceEvent.affineFromMontgomery Buffer.basesDevice,
      DeviceEvent.fromMontgomery Buffer.scalarsDevice], ?_, Or.inr rfl, ?_, rfl,
      fun _ => rfl, ?_, fun e => absurd e h5a⟩ <;>
    cases mt <;>
    simp [runGPUMSM, timeNow, timeSince, copyToDevice, affineFromMontgomery, fromMontgomery,
      msm, deviceCall, h1, h2, h3, h4, h5a, h5b]


theorem monotonicClock_le {c : Nat → Int} (h : MonotonicClock c) {i j : Nat} (hij : i ≤ j) :
    c i ≤ c j :=
  monotone_nat_of_le_succ h.2 hij

theorem satInt64_sub {c : Nat → Int} (h : MonotonicClock c) {i j : Nat} (hij : i ≤ j) :
    satInt64 (c j - c i) = c j - c i := by
  have h1 := monotonicClock_le h hij
  have h2 := (h.1 i).1
  have h3 := (h.1 j).2
  unfold satInt64 minInt64
  unfold maxInt64 at *
  rw [min_eq_left (by omega), max_eq_right (by omega)]

theorem sampleWorld_monotonic : MonotonicClock sampleWorld.clock := by
  refine ⟨fun k => ?_, fun k => ?_⟩
  · simp only [sampleWorld, maxInt64]; omega
  · simp only [sampleWorld]; omega

theorem goAverage {T r : Int} (h0 : 0 ≤ T) (h1 : T ≤ maxInt64) (hr : 1 ≤ r) :
    wrapInt64 (Int.tdiv T r) = Int.tdiv T r ∧ 0 ≤ T - Int.tdiv T r * r ∧
      T - Int.tdiv T r * r < r := by
  have hr0 : (0 : Int) ≤ r := by omega
  rw [Int.tdiv_eq_ediv h0 hr0]
  have hq0 : 0 ≤ T / r := Int.ediv_nonneg h0 hr0
  have hq1 : T / r ≤ T := Int.ediv_le_self r h0
  have hm := Int.emod_def T r
  have hm0 := Int.emod_nonneg T (show r ≠ 0 by omega)
  have hm1 := Int.emod_lt_of_pos T (show 0 < r by omega)
  unfold maxInt64 at h1
  refine ⟨wrapInt64_of_range (by omega) (by omega), ?_, ?_⟩
  · have : T - T / r * r = T % r := by rw [hm]; ring
    omega
  · have : T - T / r * r = T % r := by rw [hm]; ring
    omega

theorem randomScalars_fst (n : Nat) (w : World) :
    (randomScalars n w).1 = (List.range n).map (fun i => w.rand (w.drawn + i)) := by
  induction n generalizing w with
  | zero => rfl
  | succ n ih =>
    simp only [randomScalars, ih, List.range_succ_eq_map, List.map_cons, List.map_map]
    simp [Function.comp_def, Nat.add_assoc, Nat.add_comm 1]

theorem randomScalars_snd (n : Nat) (w : World) :
    (randomScalars n w).2 = { w with drawn := w.drawn + n } := by
  induction n generalizing w with
  | zero => rfl
  | succ n ih =>
    simp only [randomScalars, ih]
    simp [Nat.add_assoc, Nat.add_comm 1]

theorem randomBases_fst (n : Nat) (w : World) :
    (randomBases n w).1 = (List.range n).map (fun i => w.generatorMul (w.rand (w.drawn + i))) := by
  induction n generalizing w with
  | zero => rfl
  | succ n ih =>
    simp only [randomBases, ih, List.range_succ_eq_map, List.map_cons, List.map_map]
    simp [Function.comp_def, Nat.add_assoc, Nat.add_comm 1]

theorem randomBases_snd (n : Nat) (w : World) :
    (randomBases n w).2 = { w with drawn := w.drawn + n } := by
  induction n generalizing w with
  | zero => rfl
  | succ n ih =>
    simp only [randomBases, ih]
    simp [Nat.add_assoc, Nat.add_comm 1]

theorem sampleScalars_length (w : World) (n : Nat) : (sampleScalars w n).length = n := by
  simp [sampleScalars]

theorem sampleBases_length (w : World) (n : Nat) : (sampleBases w n).length = n := by
  simp [sampleBases]

theorem randomScalars_eq (n : Nat) (w : World) :
    randomScalars n w = (sampleScalars w n, { w with drawn := w.drawn + n }) :=
  Prod.ext (randomScalars_fst n w) (randomScalars_snd n w)

theorem randomBases_eq (n : Nat) (w : World) :
    randomBases n { w with drawn := w.drawn + n } =
      (sampleBases w n, { w with drawn := w.drawn + 2 * n }) := by
  refine Prod.ext (randomBases_fst n _) ?_
  rw [randomBases_snd]
  simp
  omega

theorem cpuLoop_world (bases : List G1Affine) (scalars : List Fr) (n : Nat) (T : Duration)
    (r : G1Affine) (w : World) :
    (cpuLoop bases scalars n T r w).2 =
      { w with tick := w.tick + 2 * n,
               calls := w.calls ++ List.replicate n (Call.runCPUMSM bases scalars) } := by
  induction n generalizing T r w with
  | zero => simp [cpuLoop]
  | succ n ih =>
    simp only [cpuLoop, timeNow, runCPUMSM, timeSince, ih]
    simp [List.replicate_succ]
    omega

theorem cpuLoop_succ (bases : List G1Affine) (scalars : List Fr) (n : Nat) (T : Duration)
    (r : G1Affine) (w : World) :
    cpuLoop bases scalars (n + 1) T r w =
      cpuLoop bases scalars n
        (wrapInt64 (T + satInt64 (w.clock (w.tick + 1) - w.clock w.tick)))
        (w.multiExp bases scalars)
        { w with tick := w.tick + 2, calls := w.calls ++ [Call.runCPUMSM bases scalars] } :=
  rfl

theorem cpuLoop_total (bases : List G1Affine) (scalars : List Fr) (n : Nat) (T : Duration)
    (r : G1Affine) (w : World) (hclock : MonotonicClock w.clock) (h0 : 0 ≤ T)
    (h1 : T ≤ w.clock w.tick) :
    (cpuLoop bases scalars n T r w).1.1 =
        T + ∑ k in Finset.range n, (w.clock (w.tick + 2 * k + 1) - w.clock (w.tick + 2 * k)) ∧
      0 ≤ (cpuLoop bases scalars n T r w).1.1 ∧
      (cpuLoop bases scalars n T r w).1.1 ≤ w.clock (w.tick + 2 * n) := by
  induction n generalizing T r w with
  | zero => simpa [cpuLoop] using ⟨h0, h1⟩
  | succ n ih =>
    have hs := satInt64_sub hclock (show w.tick ≤ w.tick + 1 by omega)
    have ha := monotonicClock_le hclock (show w.tick ≤ w.tick + 1 by omega)
    have hb := monotonicClock_le hclock (show w.tick + 1 ≤ w.tick + 2 by omega)
    have hc := (hclock.1 (w.tick + 1)).2
    have hw : wrapInt64 (T + (w.clock (w.tick + 1) - w.clock w.tick)) =
        T + (w.clock (w.tick + 1) - w.clock w.tick) := by
      apply wrapInt64_of_range
      · have : (0 : Int) ≤ T + (w.clock (w.tick + 1) - w.clock w.tick) := by linarith
        linarith
      · unfold maxInt64 at hc
        have : T + (w.clock (w.tick + 1) - w.clock w.tick) ≤ 2 ^ 63 - 1 := by linarith
        linarith
    rw [cpuLoop_succ, hs, hw]
    obtain ⟨e1, e2, e3⟩ := ih (T + (w.clock (w.tick + 1) - w.clock w.tick))
      (w.multiExp bases scalars)
      { w with tick := w.tick + 2, calls := w.calls ++ [Call.runCPUMSM bases scalars] }
      hclock (by linarith) (by show _ ≤ w.clock (w.tick + 2); linarith)
    refine ⟨?_, e2, ?_⟩
    · rw [e1, Finset.sum_range_succ']
      have : ∀ k, w.tick + 2 + 2 * k = w.tick + 2 * (k + 1) := fun k => by omega
      simp only [this, Nat.mul_zero, Nat.add_zero]
      ring
    · have : w.tick + 2 + 2 * n = w.tick + 2 * (n + 1) := by omega
      simpa only [this] using e3


theorem gpuLoop_succ_ready (bases : List G1Affine) (scalars : List Fr) (detailed : Bool)
    (n i : Nat) (v : GPULoopVars) (w : World) (h : GPUReady bases scalars w) :
    gpuLoop bases scalars detailed (n + 1) i v w =
      gpuLoop bases scalars detailed n (i + 1)
        { gpuTotal := wrapInt64 (v.gpuTotal + satInt64
            (w.clock (w.tick + 1 + (if (detailed && i == 0) then 12 else 1)) - w.clock w.tick)),
          breakdown := if (detailed && i == 0) then
              some (measuredBreakdown { w with tick := w.tick + 1 })
            else v.breakdown,
          gpu_res := projectiveToGnarkAffine w (w.msmOut (w.ops + 2)),
          bd := if (detailed && i == 0) then
              some (measuredBreakdown { w with tick := w.tick + 1 })
            else none }
        { w with tick := w.tick + 2 + (if (detailed && i == 0) then 12 else 1),
                 allocs := w.allocs + 2, ops := w.ops + 5,
                 device := w.device ++ deviceTrace bases.length scalars.length,
                 calls := w.calls ++ [Call.runGPUMSM bases scalars (detailed && i == 0)] } := by
  have h' : GPUReady bases scalars { w with tick := w.tick + 1 } := h
  rw [gpuLoop]
  simp only [timeNow]
  rw [runGPUMSM_of_ready _ _ _ _ h']
  generalize (detailed && i == 0) = f
  cases f <;> simp [timeSince, afterGPURun, projectiveToGnarkAffine, Nat.add_assoc]

theorem gpuLoop_succ_not_ready (bases : List G1Affine) (scalars : List Fr) (detailed : Bool)
    (n i : Nat) (v : GPULoopVars) (w : World) (h : ¬ GPUReady bases scalars w) :
    ∃ p, (gpuLoop bases scalars detailed (n + 1) i v w).1 = Outcome.panic p ∧
      (p = Panic.deviceAllocation ∨ p = Panic.msmLengths) := by
  have h' : ¬ GPUReady bases scalars { w with tick := w.tick + 1 } := h
  obtain ⟨p, evs, e, hp, _⟩ := runGPUMSM_of_not_ready bases scalars (detailed && i == 0) _ h'
  refine ⟨p, ?_, hp⟩
  rw [gpuLoop]
  simp only [timeNow]
  generalize runGPUMSM bases scalars (detailed && i == 0) { w with tick := w.tick + 1 } = r at e
  obtain ⟨o, u⟩ := r
  simp only at e
  subst e
  rfl


theorem LoopReady_head {bases : List G1Affine} {scalars : List Fr} {w : World} {n : Nat}
    (h : LoopReady bases scalars w (n + 1)) : GPUReady bases scalars w := by
  have := h 0 (Nat.succ_pos n)
  simpa [GPUReady] using this

theorem LoopReady_tail {bases : List G1Affine} {scalars : List Fr} {w : World} {n : Nat}
    (h : LoopReady bases scalars w (n + 1)) (u : World) (ha : u.alloc = w.alloc)
    (hn : u.allocs = w.allocs + 2) (hm : u.msmAccepts = w.msmAccepts) :
    LoopReady bases scalars u n := by
  intro j hj
  have := h (j + 1) (Nat.succ_lt_succ hj)
  simp only [GPUReady, ha, hn, hm] at this ⊢
  have e : w.allocs + 2 * (j + 1) = w.allocs + 2 + 2 * j := by omega
  rw [e] at this
  exact this

theorem LoopReady_cons {bases : List G1Affine} {scalars : List Fr} {w : World} {n : Nat}
    (h0 : GPUReady bases scalars w) (u : World) (h : LoopReady bases scalars u n)
    (ha : u.alloc = w.alloc) (hn : u.allocs = w.allocs + 2)
    (hm : u.msmAccepts = w.msmAccepts) : LoopReady bases scalars w (n + 1) := by
  intro j hj
  cases j with
  | zero => simpa [GPUReady] using h0
  | succ j =>
    have := h j (Nat.lt_of_succ_lt_succ hj)
    simp only [GPUReady, ha, hn, hm] at this ⊢
    have e : w.allocs + 2 * (j + 1) = w.allocs + 2 + 2 * j := by omega
    rw [e]
    exact this

theorem LoopReady_of_allocations (bases : List G1Affine) (scalars : List Fr) (w : World)
    (n : Nat) (hb : bases.length ≠ 0) (hl : scalars.length = bases.length)
    (h : AllocationsSucceed w) : LoopReady bases scalars w n := by
  intro j _
  exact ⟨hb, h _, by omega, h _, Or.inl hl⟩

theorem gpuLoop_ok_ready (bases : List G1Affine) (scalars : List Fr) (detailed : Bool)
    (n i : Nat) (v : GPULoopVars) (w : World) (r : GPULoopVars)
    (h : (gpuLoop bases scalars detailed n i v w).1 = Outcome.ok r) :
    LoopReady bases scalars w n := by
  induction n generalizing i v w with
  | zero => intro j hj; exact absurd hj (Nat.not_lt_zero j)
  | succ n ih =>
    by_cases hr : GPUReady bases scalars w
    · rw [gpuLoop_succ_ready _ _ _ _ _ _ _ hr] at h
      have hrest := ih _ _ _ h
      exact LoopReady_cons hr _ hrest rfl rfl rfl
    · obtain ⟨p, e, _⟩ := gpuLoop_succ_not_ready bases scalars detailed n i v w hr
      rw [e] at h
      exact absurd h (by simp)

theorem gpuLoop_panic_kind (bases : List G1Affine) (scalars : List Fr) (detailed : Bool)
    (n i : Nat) (v : GPULoopVars) (w : World) (p : Panic)
    (h : (gpuLoop bases scalars detailed n i v w).1 = Outcome.panic p) :
    p = Panic.deviceAllocation ∨ p = Panic.msmLengths := by
  induction n generalizing i v w with
  | zero => simp [gpuLoop] at h
  | succ n ih =>
    by_cases hr : GPUReady bases scalars w
    · rw [gpuLoop_succ_ready _ _ _ _ _ _ _ hr] at h
      exact ih _ _ _ h
    · obtain ⟨q, e, hq⟩ := gpuLoop_succ_not_ready bases scalars detailed n i v w hr
      rw [e] at h
      simp only [Outcome.panic.injEq] at h
      exact h ▸ hq

theorem gpuLoop_tail (bases : List G1Affine) (scalars : List Fr) (detailed : Bool)
    (n i : Nat) (hi : i ≠ 0) (v : GPULoopVars) (w : World)
    (hr : LoopReady bases scalars w n) :
    ∃ r, gpuLoop bases scalars detailed n i v w =
        (Outcome.ok r,
          { w with tick := w.tick + 3 * n, allocs := w.allocs + 2 * n, ops := w.ops + 5 * n,
                   device := w.device ++
                     (List.replicate n (deviceTrace bases.length scalars.length)).flatten,
                   calls := w.calls ++
                     List.replicate n (Call.runGPUMSM bases scalars false) }) ∧
      r.breakdown = v.breakdown ∧
      (MonotonicClock w.clock → 0 ≤ v.gpuTotal → v.gpuTotal ≤ w.clock w.tick →
        r.gpuTotal = v.gpuTotal +
            ∑ k in Finset.range n, (w.clock (w.tick + 3 * k + 2) - w.clock (w.tick + 3 * k)) ∧
          0 ≤ r.gpuTotal ∧ r.gpuTotal ≤ w.clock (w.tick + 3 * n)) := by
  induction n generalizing i v w with
  | zero => exact ⟨v, by simp [gpuLoop], rfl, fun _ h0 h1 => by simpa using ⟨h0, h1⟩⟩
  | succ n ih =>
    have hf : (detailed && i == 0) = false := by simp [hi]
    rw [gpuLoop_succ_ready _ _ _ _ _ _ _ (LoopReady_head hr)]
    simp only [hf, Bool.false_eq_true, if_false]
    obtain ⟨r, e, eb, et⟩ := ih (i + 1) (Nat.succ_ne_zero i)
      { gpuTotal := wrapInt64 (v.gpuTotal + satInt64 (w.clock (w.tick + 1 + 1) - w.clock w.tick)),
        breakdown := v.breakdown,
        gpu_res := projectiveToGnarkAffine w (w.msmOut (w.ops + 2)),
        bd := none }
      { w with tick := w.tick + 2 + 1, allocs := w.allocs + 2, ops := w.ops + 5,
               device := w.device ++ deviceTrace bases.length scalars.length,
               calls := w.calls ++ [Call.runGPUMSM bases scalars false] }
      (LoopReady_tail hr _ rfl rfl rfl)
    refine ⟨r, ?_, eb, ?_⟩
    · rw [e]
      simp [List.replicate_succ]
      omega
    · intro hclock h0 h1
      have hs := satInt64_sub hclock (show w.tick ≤ w.tick + 2 by omega)
      have ha := monotonicClock_le hclock (show w.tick ≤ w.tick + 2 by omega)
      have hb := monotonicClock_le hclock (show w.tick + 2 ≤ w.tick + 3 by omega)
      have hc := (hclock.1 (w.tick + 2)).2
      have hw : wrapInt64 (v.gpuTotal + (w.clock (w.tick + 2) - w.clock w.tick)) =
          v.gpuTotal + (w.clock (w.tick + 2) - w.clock w.tick) := by
        apply wrapInt64_of_range
        · have : (0 : Int) ≤ v.gpuTotal + (w.clock (w.tick + 2) - w.clock w.tick) := by linarith
          linarith
        · unfold maxInt64 at hc
          have : v.gpuTotal + (w.clock (w.tick + 2) - w.clock w.tick) ≤ 2 ^ 63 - 1 := by
            linarith
          linarith
      have hT : wrapInt64 (v.gpuTotal + satInt64 (w.clock (w.tick + 1 + 1) - w.clock w.tick)) =
          v.gpuTotal + (w.clock (w.tick + 2) - w.clock w.tick) := by
        rw [show w.tick + 1 + 1 = w.tick + 2 by omega, hs, hw]
      obtain ⟨e1, e2, e3⟩ := et hclock
        (by show (0 : Int) ≤ wrapInt64 _; rw [hT]; linarith)
        (by show wrapInt64 _ ≤ w.clock (w.tick + 2 + 1); rw [hT]; linarith)
      refine ⟨?_, e2, ?_⟩
      · rw [e1, Finset.sum_range_succ']
        show wrapInt64 _ + _ = _
        rw [hT]
        have : ∀ k, w.tick + 2 + 1 + 3 * k = w.tick + 3 * (k + 1) := fun k => by omega
        simp only [this, Nat.mul_zero, Nat.add_zero]
        ring
      · have : w.tick + 2 + 1 + 3 * n = w.tick + 3 * (n + 1) := by omega
        simpa only [this] using e3


theorem gpuLoop_first (bases : List G1Affine) (scalars : List Fr) (detailed : Bool)
    (m : Nat) (v : GPULoopVars) (w : World) (hr : LoopReady bases scalars w (m + 1)) :
    ∃ r, gpuLoop bases scalars detailed (m + 1) 0 v w =
        (Outcome.ok r,
          { w with tick := w.tick + (if detailed then 14 else 3) + 3 * m,
                   allocs := w.allocs + 2 * (m + 1), ops := w.ops + 5 * (m + 1),
                   device := w.device ++
                     (List.replicate (m + 1) (deviceTrace bases.length scalars.length)).flatten,
                   calls := w.calls ++ (Call.runGPUMSM bases scalars detailed ::
                     List.replicate m (Call.runGPUMSM bases scalars false)) }) ∧
      r.breakdown = (if detailed then some (measuredBreakdown { w with tick := w.tick + 1 })
        else v.breakdown) ∧
      (MonotonicClock w.clock → v.gpuTotal = 0 →
        r.gpuTotal = (w.clock (w.tick + (if detailed then 13 else 2)) - w.clock w.tick) +
            ∑ k in Finset.range m,
              (w.clock (w.tick + (if detailed then 14 else 3) + 3 * k + 2) -
                w.clock (w.tick + (if detailed then 14 else 3) + 3 * k)) ∧
          0 ≤ r.gpuTotal ∧
          r.gpuTotal ≤ w.clock (w.tick + (if detailed then 14 else 3) + 3 * m)) := by
  rw [gpuLoop_succ_ready _ _ _ _ _ _ _ (LoopReady_head hr)]
  have key : ∀ c : Nat, MonotonicClock w.clock → v.gpuTotal = 0 →
      wrapInt64 (v.gpuTotal + satInt64 (w.clock (w.tick + 1 + c) - w.clock w.tick)) =
        w.clock (w.tick + 1 + c) - w.clock w.tick ∧
      (0 : Int) ≤ w.clock (w.tick + 1 + c) - w.clock w.tick ∧
      w.clock (w.tick + 1 + c) - w.clock w.tick ≤ w.clock (w.tick + 2 + c) := by
    intro c hclock hv
    have hs := satInt64_sub hclock (show w.tick ≤ w.tick + 1 + c by omega)
    have ha := monotonicClock_le hclock (show w.tick ≤ w.tick + 1 + c by omega)
    have hb := monotonicClock_le hclock (show w.tick + 1 + c ≤ w.tick + 2 + c by omega)
    have hc := (hclock.1 (w.tick + 1 + c)).2
    have hd := (hclock.1 w.tick).1
    unfold maxInt64 at hc
    refine ⟨?_, by linarith, by linarith⟩
    rw [hv, hs, zero_add]
    apply wrapInt64_of_range
    · have : (0 : Int) ≤ w.clock (w.tick + 1 + c) - w.clock w.tick := by linarith
      linarith
    · have : w.clock (w.tick + 1 + c) - w.clock w.tick ≤ 2 ^ 63 - 1 := by linarith
      linarith
  cases detailed
  · simp only [Bool.false_and, Bool.false_eq_true, if_false]
    obtain ⟨r, e, eb, et⟩ := gpuLoop_tail bases scalars false m 1 (Nat.succ_ne_zero 0)
      { gpuTotal := wrapInt64 (v.gpuTotal + satInt64 (w.clock (w.tick + 1 + 1) - w.clock w.tick)),
        breakdown := v.breakdown,
        gpu_res := projectiveToGnarkAffine w (w.msmOut (w.ops + 2)),
        bd := none }
      { w with tick := w.tick + 2 + 1, allocs := w.allocs + 2, ops := w.ops + 5,
               device := w.device ++ deviceTrace bases.length scalars.length,
               calls := w.calls ++ [Call.runGPUMSM bases scalars false] }
      (LoopReady_tail hr _ rfl rfl rfl)
    refine ⟨r, ?_, eb, ?_⟩
    · rw [e]
      simp [List.replicate_succ]
      omega
    · intro hclock hv
      obtain ⟨k1, k2, k3⟩ := key 1 hclock hv
      obtain ⟨e1, e2, e3⟩ := et hclock (by show (0 : Int) ≤ wrapInt64 _; rw [k1]; exact k2)
        (by show wrapInt64 _ ≤ w.clock (w.tick + 2 + 1); rw [k1]; exact k3)
      refine ⟨?_, e2, e3⟩
      rw [e1]
      show wrapInt64 _ + _ = _
      rw [k1]
  · simp only [Bool.true_and, beq_self_eq_true, if_true]
    obtain ⟨r, e, eb, et⟩ := gpuLoop_tail bases scalars true m 1 (Nat.succ_ne_zero 0)
      { gpuTotal := wrapInt64 (v.gpuTotal + satInt64 (w.clock (w.tick + 1 + 12) - w.clock w.tick)),
        breakdown := some (measuredBreakdown { w with tick := w.tick + 1 }),
        gpu_res := projectiveToGnarkAffine w (w.msmOut (w.ops + 2)),
        bd := some (measuredBreakdown { w with tick := w.tick + 1 }) }
      { w with tick := w.tick + 2 + 12, allocs := w.allocs + 2, ops := w.ops + 5,
               device := w.device ++ deviceTrace bases.length scalars.length,
               calls := w.calls ++ [Call.runGPUMSM bases scalars true] }
      (LoopReady_tail hr _ rfl rfl rfl)
    refine ⟨r, ?_, eb, ?_⟩
    · rw [e]
      simp [List.replicate_succ]
      omega
    · intro hclock hv
      obtain ⟨k1, k2, k3⟩ := key 12 hclock hv
      obtain ⟨e1, e2, e3⟩ := et hclock (by show (0 : Int) ≤ wrapInt64 _; rw [k1]; exact k2)
        (by show wrapInt64 _ ≤ w.clock (w.tick + 2 + 12); rw [k1]; exact k3)
      refine ⟨?_, e2, e3⟩
      rw [e1]
      show wrapInt64 _ + _ = _
      rw [k1]

theorem makeSlice_scalars (size : Int) (h0 : 0 ≤ size) (h1 : size ≤ 2 ^ 42) :
    makeSlice frElementBytes size = Outcome.ok size.toNat := by
  unfold makeSlice frElementBytes maxAlloc
  rw [if_neg (by omega)]

theorem makeSlice_bases (size : Int) (h0 : 0 ≤ size) (h1 : size ≤ 2 ^ 42) :
    makeSlice g1AffineBytes size = Outcome.ok size.toNat := by
  unfold makeSlice g1AffineBytes maxAlloc
  rw [if_neg (by omega)]

theorem runMSMTest_make_panic (test : MSMTest) (runs : Int) (detailed : Bool) (w : World)
    (h : test.Size < 0 ∨ 2 ^ 42 < test.Size) :
    runMSMTest test runs detailed w = (Outcome.panic Panic.makesliceLen, w) := by
  unfold runMSMTest
  by_cases hs : test.Size < 0 ∨ maxAlloc < frElementBytes * test.Size
  · simp [makeSlice, hs]
  · have hb : test.Size < 0 ∨ maxAlloc < g1AffineBytes * test.Size := by
      unfold maxAlloc g1AffineBytes
      omega
    simp [makeSlice, hs, hb]


theorem runMSMTest_after_warmUp (test : MSMTest) (runs : Int) (detailed : Bool) (w : World)
    (h0 : 0 ≤ test.Size) (h1 : test.Size ≤ 2 ^ 42)
    (hw : GPUReady (sampleBases w test.Size.toNat) (sampleScalars w test.Size.toNat) w) :
    runMSMTest test runs detailed w =
      (match goDiv (cpuLoop (sampleBases w test.Size.toNat) (sampleScalars w test.Size.toNat)
          runs.toNat 0 { X := 0, Y := 0 } (afterWarmUp w test.Size.toNat)).1.1 runs with
      | Outcome.panic p => (Outcome.panic p,
          (cpuLoop (sampleBases w test.Size.toNat) (sampleScalars w test.Size.toNat)
            runs.toNat 0 { X := 0, Y := 0 } (afterWarmUp w test.Size.toNat)).2)
      | Outcome.ok cpuAvg =>
        match gpuLoop (sampleBases w test.Size.toNat) (sampleScalars w test.Size.toNat)
          detailed runs.toNat 0
          { gpuTotal := 0, breakdown := none, gpu_res := { X := 0, Y := 0 }, bd := none }
          (cpuLoop (sampleBases w test.Size.toNat) (sampleScalars w test.Size.toNat)
            runs.toNat 0 { X := 0, Y := 0 } (afterWarmUp w test.Size.toNat)).2 with
        | (Outcome.panic p, u) => (Outcome.panic p, u)
        | (Outcome.ok gpu, u) =>
          match goDiv gpu.gpuTotal runs with
          | Outcome.panic p => (Outcome.panic p, u)
          | Outcome.ok gpuAvg => (Outcome.ok (cpuAvg, gpuAvg, gpu.breakdown), u)) := by
  have hw' : GPUReady (sampleBases w test.Size.toNat) (sampleScalars w test.Size.toNat)
      { w with drawn := w.drawn + 2 * test.Size.toNat,
               calls := w.calls ++ [Call.runCPUMSM (sampleBases w test.Size.toNat)
                 (sampleScalars w test.Size.toNat)] } := hw
  have ha : afterGPURun (sampleBases w test.Size.toNat) (sampleScalars w test.Size.toNat) false
      { w with drawn := w.drawn + 2 * test.Size.toNat,
               calls := w.calls ++ [Call.runCPUMSM (sampleBases w test.Size.toNat)
                 (sampleScalars w test.Size.toNat)] } = afterWarmUp w test.Size.toNat := by
    simp [afterGPURun, afterWarmUp, sampleBases_length, sampleScalars_length]
  unfold runMSMTest
  rw [makeSlice_scalars _ h0 h1, makeSlice_bases _ h0 h1]
  simp only []
  rw [randomScalars_eq]
  simp only []
  rw [randomBases_eq]
  simp only [runCPUMSM]
  rw [runGPUMSM_of_ready _ _ _ _ hw', ha]

theorem runMSMTest_warmUp_panic (test : MSMTest) (runs : Int) (detailed : Bool) (w : World)
    (h0 : 0 ≤ test.Size) (h1 : test.Size ≤ 2 ^ 42)
    (hw : ¬ GPUReady (sampleBases w test.Size.toNat) (sampleScalars w test.Size.toNat) w) :
    (runMSMTest test runs detailed w).1 = Outcome.panic Panic.deviceAllocation ∧
      (runMSMTest test runs detailed w).2.calls = w.calls ++
        [Call.runCPUMSM (sampleBases w test.Size.toNat) (sampleScalars w test.Size.toNat),
         Call.runGPUMSM (sampleBases w test.Size.toNat) (sampleScalars w test.Size.toNat)
           false] := by
  have hw' : ¬ GPUReady (sampleBases w test.Size.toNat) (sampleScalars w test.Size.toNat)
      { w with drawn := w.drawn + 2 * test.Size.toNat,
               calls := w.calls ++ [Call.runCPUMSM (sampleBases w test.Size.toNat)
                 (sampleScalars w test.Size.toNat)] } := hw
  obtain ⟨p, evs, e, _, _, _, _, ec, hp⟩ := runGPUMSM_of_not_ready _ _ false _ hw'
  have hp' : p = Panic.deviceAllocation :=
    hp (by rw [sampleScalars_length, sampleBases_length])
  subst hp'
  unfold runMSMTest
  rw [makeSlice_scalars _ h0 h1, makeSlice_bases _ h0 h1]
  simp only []
  rw [randomScalars_eq]
  simp only []
  rw [randomBases_eq]
  simp only [runCPUMSM]
  generalize runGPUMSM (sampleBases w test.Size.toNat) (sampleScalars w test.Size.toNat) false
    { w with drawn := w.drawn + 2 * test.Size.toNat,
             calls := w.calls ++ [Call.runCPUMSM (sampleBases w test.Size.toNat)
               (sampleScalars w test.Size.toNat)] } = r at e ec
  obtain ⟨o, u⟩ := r
  simp only at e ec
  subst e
  exact ⟨rfl, by simpa using ec⟩

theorem runMSMTest_zero_runs (test : MSMTest) (detailed : Bool) (w : World)
    (h0 : 0 ≤ test.Size) (h1 : test.Size ≤ 2 ^ 42)
    (hw : GPUReady (sampleBases w test.Size.toNat) (sampleScalars w test.Size.toNat) w) :
    runMSMTest test 0 detailed w =
      (Outcome.panic Panic.divideByZero, afterWarmUp w test.Size.toNat) := by
  rw [runMSMTest_after_warmUp test 0 detailed w h0 h1 hw]
  simp [goDiv, cpuLoop]

theorem runMSMTest_negative_runs (test : MSMTest) (runs : Int) (detailed : Bool) (w : World)
    (h0 : 0 ≤ test.Size) (h1 : test.Size ≤ 2 ^ 42)
    (hw : GPUReady (sampleBases w test.Size.toNat) (sampleScalars w test.Size.toNat) w)
    (hruns : runs < 0) :
    runMSMTest test runs detailed w =
      (Outcome.ok (0, 0, none), afterWarmUp w test.Size.toNat) := by
  have hn : runs.toNat = 0 := by omega
  have hne : runs ≠ 0 := by omega
  rw [runMSMTest_after_warmUp test runs detailed w h0 h1 hw, hn]
  simp [goDiv, cpuLoop, gpuLoop, hne, wrapInt64]

theorem cpuLoop_timed_total (bases : List G1Affine) (scalars : List Fr) (R n : Nat)
    (r : G1Affine) (w : World) (hclock : MonotonicClock w.clock) :
    (cpuLoop bases scalars R 0 r (afterWarmUp w n)).1.1 = timedCPUTotal w R ∧
      0 ≤ timedCPUTotal w R ∧ timedCPUTotal w R ≤ maxInt64 := by
  obtain ⟨e1, e2, e3⟩ := cpuLoop_total bases scalars R 0 r (afterWarmUp w n) hclock
    (le_refl _) (hclock.1 _).1
  have e : (cpuLoop bases scalars R 0 r (afterWarmUp w n)).1.1 = timedCPUTotal w R := by
    rw [e1]
    simp [timedCPUTotal, cpuRepDuration, afterWarmUp]
  rw [e] at e2 e3
  exact ⟨e, e2, le_trans e3 (hclock.1 _).2⟩

theorem runMSMTest_positive (test : MSMTest) (runs : Int) (detailed : Bool) (w : World)
    (h0 : 0 ≤ test.Size) (h1 : test.Size ≤ 2 ^ 42) (hruns : 1 ≤ runs)
    (hr : LoopReady (sampleBases w test.Size.toNat) (sampleScalars w test.Size.toNat) w
      (runs.toNat + 1)) :
    ∃ cpuAvg gpuAvg,
      runMSMTest test runs detailed w =
        (Outcome.ok (cpuAvg, gpuAvg,
            if detailed then
              some (measuredBreakdown (firstTimedGPUWorld w test.Size.toNat runs.toNat))
            else none),
          afterTimedRuns w test.Size.toNat runs.toNat detailed) ∧
      (MonotonicClock w.clock →
        cpuAvg = Int.tdiv (timedCPUTotal w runs.toNat) runs ∧
        gpuAvg = Int.tdiv (timedGPUTotal w runs.toNat detailed) runs ∧
        0 ≤ timedCPUTotal w runs.toNat ∧ timedCPUTotal w runs.toNat ≤ maxInt64 ∧
        0 ≤ timedGPUTotal w runs.toNat detailed ∧
        timedGPUTotal w runs.toNat detailed ≤ maxInt64) := by
  obtain ⟨m, hm⟩ : ∃ m, runs.toNat = m + 1 := ⟨runs.toNat - 1, by omega⟩
  have hne : runs ≠ 0 := by omega
  have hw := LoopReady_head hr
  rw [hm] at hr ⊢
  have hloop : LoopReady (sampleBases w test.Size.toNat) (sampleScalars w test.Size.toNat)
      { afterWarmUp w test.Size.toNat with
        tick := (afterWarmUp w test.Size.toNat).tick + 2 * (m + 1),
        calls := (afterWarmUp w test.Size.toNat).calls ++ List.replicate (m + 1)
          (Call.runCPUMSM (sampleBases w test.Size.toNat) (sampleScalars w test.Size.toNat)) }
      (m + 1) := LoopReady_tail hr _ rfl rfl rfl
  obtain ⟨r, e, eb, et⟩ := gpuLoop_first (sampleBases w test.Size.toNat)
    (sampleScalars w test.Size.toNat) detailed m
    { gpuTotal := 0, breakdown := none, gpu_res := { X := 0, Y := 0 }, bd := none } _ hloop
  have hbd : r.breakdown = if detailed then
      some (measuredBreakdown (firstTimedGPUWorld w test.Size.toNat (m + 1))) else none := by
    rw [eb]
    cases detailed
    · rfl
    · simp only [if_true]
      congr 2
      simp [firstTimedGPUWorld, afterWarmUp]
      omega
  have hrun : runMSMTest test runs detailed w =
      (Outcome.ok (wrapInt64 (Int.tdiv (cpuLoop (sampleBases w test.Size.toNat)
            (sampleScalars w test.Size.toNat) (m + 1) 0 { X := 0, Y := 0 }
            (afterWarmUp w test.Size.toNat)).1.1 runs),
          wrapInt64 (Int.tdiv r.gpuTotal runs),
          if detailed then
            some (measuredBreakdown (firstTimedGPUWorld w test.Size.toNat (m + 1)))
          else none),
        afterTimedRuns w test.Size.toNat (m + 1) detailed) := by
    rw [runMSMTest_after_warmUp test runs detailed w h0 h1 hw, hm]
    simp only [goDiv, if_neg hne]
    rw [cpuLoop_world, e]
    simp only [hbd]
    congr 1
    simp [afterTimedRuns, afterWarmUp, sampleBases_length, sampleScalars_length,
      List.replicate_succ]
  refine ⟨_, _, hrun, ?_⟩
  intro hclock
  obtain ⟨c1, c2, c3⟩ := cpuLoop_timed_total (sampleBases w test.Size.toNat)
    (sampleScalars w test.Size.toNat) (m + 1) test.Size.toNat { X := 0, Y := 0 } w hclock
  obtain ⟨e1, e2, e3⟩ := et hclock rfl
  have eg : r.gpuTotal = timedGPUTotal w (m + 1) detailed := by
    rw [e1, timedGPUTotal, Finset.sum_range_succ', add_comm]
    have hidx : ∀ a b : Nat, a = b → w.clock a = w.clock b := fun a b h => by rw [h]
    cases detailed
    · simp only [gpuRepDuration, gpuRepStart, afterWarmUp, Bool.false_and, Bool.false_eq_true,
        if_false]
      refine congrArg₂ (· + ·) (Finset.sum_congr rfl fun k _ => ?_) ?_
      · rw [hidx (w.tick + 1 + 2 * (m + 1) + 3 + 3 * k + 2)
            (w.tick + 1 + 2 * (m + 1) + 3 * (k + 1) + 0 + 2) (by omega),
          hidx (w.tick + 1 + 2 * (m + 1) + 3 + 3 * k)
            (w.tick + 1 + 2 * (m + 1) + 3 * (k + 1) + 0) (by omega)]
      · rfl
    · simp only [gpuRepDuration, gpuRepStart, afterWarmUp, Bool.true_and, if_true]
      refine congrArg₂ (· + ·) (Finset.sum_congr rfl fun k _ => ?_) ?_
      · rw [hidx (w.tick + 1 + 2 * (m + 1) + 14 + 3 * k + 2)
            (w.tick + 1 + 2 * (m + 1) + 3 * (k + 1) + 11 + 2) (by omega),
          hidx (w.tick + 1 + 2 * (m + 1) + 14 + 3 * k)
            (w.tick + 1 + 2 * (m + 1) + 3 * (k + 1) + 11) (by omega)]
        simp
      · simp
  rw [eg] at e2 e3
  have g3 : timedGPUTotal w (m + 1) detailed ≤ maxInt64 := le_trans e3 (hclock.1 _).2
  rw [c1, eg, (goAverage c2 c3 hruns).1, (goAverage e2 g3 hruns).1]
  exact ⟨rfl, rfl, c2, c3, e2, g3⟩


theorem runMSMTest_ok_ready (test : MSMTest) (runs : Int) (detailed : Bool) (w : World)
    (r : Duration × Duration × Option GPUTimingBreakdown)
    (h : (runMSMTest test runs detailed w).1 = Outcome.ok r) :
    0 ≤ test.Size ∧ test.Size ≤ 2 ^ 42 ∧ runs ≠ 0 ∧
      LoopReady (sampleBases w test.Size.toNat) (sampleScalars w test.Size.toNat) w
        (runs.toNat + 1) := by
  by_cases hs : test.Size < 0 ∨ 2 ^ 42 < test.Size
  · rw [runMSMTest_make_panic test runs detailed w hs] at h
    exact absurd h (by simp)
  have h0 : 0 ≤ test.Size := by omega
  have h1 : test.Size ≤ 2 ^ 42 := by omega
  by_cases hw : GPUReady (sampleBases w test.Size.toNat) (sampleScalars w test.Size.toNat) w
  swap
  · rw [(runMSMTest_warmUp_panic test runs detailed w h0 h1 hw).1] at h
    exact absurd h (by simp)
  by_cases hne : runs = 0
  · subst hne
    rw [runMSMTest_zero_runs test detailed w h0 h1 hw] at h
    exact absurd h (by simp)
  refine ⟨h0, h1, hne, ?_⟩
  rw [runMSMTest_after_warmUp test runs detailed w h0 h1 hw] at h
  simp only [goDiv, if_neg hne] at h
  generalize hg : gpuLoop (sampleBases w test.Size.toNat) (sampleScalars w test.Size.toNat)
    detailed runs.toNat 0
    { gpuTotal := 0, breakdown := none, gpu_res := { X := 0, Y := 0 }, bd := none }
    (cpuLoop (sampleBases w test.Size.toNat) (sampleScalars w test.Size.toNat)
      runs.toNat 0 { X := 0, Y := 0 } (afterWarmUp w test.Size.toNat)).2 = g at h
  obtain ⟨o, u⟩ := g
  cases o with
  | panic p => exact absurd h (by simp)
  | ok v =>
    have hl := gpuLoop_ok_ready _ _ _ _ _ _ _ v (by rw [hg])
    refine LoopReady_cons hw _ hl ?_ ?_ ?_ <;> rw [cpuLoop_world] <;> rfl

theorem runMSMTest_divideByZero_iff (test : MSMTest) (runs : Int) (detailed : Bool) (w : World)
    (h0 : 0 ≤ test.Size) (h1 : test.Size ≤ 2 ^ 42)
    (hw : GPUReady (sampleBases w test.Size.toNat) (sampleScalars w test.Size.toNat) w) :
    (runMSMTest test runs detailed w).1 = Outcome.panic Panic.divideByZero ↔ runs = 0 := by
  constructor
  · intro h
    by_contra hne
    rw [runMSMTest_after_warmUp test runs detailed w h0 h1 hw] at h
    simp only [goDiv, if_neg hne] at h
    generalize hg : gpuLoop (sampleBases w test.Size.toNat) (sampleScalars w test.Size.toNat)
      detailed runs.toNat 0
      { gpuTotal := 0, breakdown := none, gpu_res := { X := 0, Y := 0 }, bd := none }
      (cpuLoop (sampleBases w test.Size.toNat) (sampleScalars w test.Size.toNat)
        runs.toNat 0 { X := 0, Y := 0 } (afterWarmUp w test.Size.toNat)).2 = g at h
    obtain ⟨o, u⟩ := g
    cases o with
    | panic p =>
      have hk := gpuLoop_panic_kind _ _ _ _ _ _ _ p (by rw [hg])
      simp only [Outcome.panic.injEq] at h
      subst h
      rcases hk with hk | hk <;> exact absurd hk (by decide)
    | ok v => exact absurd h (by simp)
  · rintro rfl
    rw [runMSMTest_zero_runs test detailed w h0 h1 hw]

theorem GPUReady_of_allocations (w : World) (n : Nat) (hn : n ≠ 0)
    (h : AllocationsSucceed w) : GPUReady (sampleBases w n) (sampleScalars w n) w :=
  ⟨by rw [sampleBases_length]; exact hn, h _, by rw [sampleScalars_length]; exact hn, h _,
    Or.inl (by rw [sampleScalars_length, sampleBases_length])⟩

theorem runMSMTest_returns (test : MSMTest) (runs : Int) (detailed : Bool) (w : World)
    (h0 : 1 ≤ test.Size) (h1 : test.Size ≤ 2 ^ 42) (hruns : runs ≠ 0)
    (ha : AllocationsSucceed w) :
    ∃ r u, runMSMTest test runs detailed w = (Outcome.ok r, u) ∧ u.alloc = w.alloc := by
  have hn : test.Size.toNat ≠ 0 := by omega
  by_cases hp : 1 ≤ runs
  · obtain ⟨a, b, e, _⟩ := runMSMTest_positive test runs detailed w (by omega) h1 hp
      (LoopReady_of_allocations _ _ w _ (by rw [sampleBases_length]; exact hn)
        (by rw [sampleScalars_length, sampleBases_length]) ha)
    exact ⟨_, _, e, rfl⟩
  · exact ⟨_, _, runMSMTest_negative_runs test runs detailed w (by omega) h1
      (GPUReady_of_allocations w _ hn ha) (by omega), rfl⟩

theorem shiftLeftOne_eq (d : Int) (h0 : 0 ≤ d) (h1 : d ≤ 62) :
    shiftLeftOne d = Outcome.ok (2 ^ d.toNat) := by
  have hk : d.toNat ≤ 62 := by omega
  have hp : (2 : Int) ^ d.toNat ≤ 2 ^ 62 := pow_le_pow_right₀ (by norm_num) hk
  have hq : (0 : Int) < 2 ^ d.toNat := by positivity
  unfold shiftLeftOne
  rw [if_neg (by omega), wrapInt64_of_range (by omega) (by omega)]

theorem generateTests_eq (n : Nat) (degree : Int) (tests : List MSMTest) (h0 : 0 ≤ degree)
    (h1 : degree + n ≤ 63) :
    generateTests n degree tests =
      Outcome.ok (tests ++ (List.range n).map (fun i : Nat => testOfDegree (degree + i))) := by
  induction n generalizing degree tests with
  | zero => simp [generateTests]
  | succ n ih =>
    have hs := shiftLeftOne_eq degree h0 (by push_cast at h1; omega)
    simp only [generateTests, hs]
    rw [ih (degree + 1) _ (by omega) (by push_cast at h1 ⊢; omega)]
    simp only [List.range_succ_eq_map, List.map_cons, List.map_map, List.append_assoc,
      List.singleton_append, Nat.cast_zero, add_zero]
    congr 3
    apply List.map_congr_left
    intro i _
    simp only [Function.comp, Nat.cast_succ]
    congr 1
    ring

theorem resultLoop_rows (runs : Int) (detailed : Bool) (tests : List MSMTest) (rows : List Row)
    (w : World) (out : List Row)
    (h : (resultLoop runs detailed tests rows w).1 = Outcome.ok out) :
    out.map Row.test = rows.map Row.test ++ tests := by
  induction tests generalizing rows w with
  | nil =>
    simp only [resultLoop, Outcome.ok.injEq] at h
    subst h
    simp
  | cons t rest ih =>
    rw [resultLoop] at h
    generalize runMSMTest t runs detailed w = g at h
    obtain ⟨o, u⟩ := g
    cases o with
    | panic p => exact absurd h (by simp)
    | ok r =>
      obtain ⟨a, b, c⟩ := r
      have := ih _ _ h
      simpa using this

theorem resultLoop_ok (runs : Int) (detailed : Bool) (hruns : runs ≠ 0) (tests : List MSMTest)
    (hsize : ∀ t ∈ tests, 1 ≤ t.Size ∧ t.Size ≤ 2 ^ 42) (rows : List Row) (w : World)
    (ha : AllocationsSucceed w) :
    ∃ out u, resultLoop runs detailed tests rows w = (Outcome.ok out, u) ∧
      out.map Row.test = rows.map Row.test ++ tests := by
  induction tests generalizing rows w with
  | nil => exact ⟨rows, w, rfl, by simp⟩
  | cons t rest ih =>
    obtain ⟨hs0, hs1⟩ := hsize t (List.mem_cons_self _ _)
    obtain ⟨r, u, e, eu⟩ := runMSMTest_returns t runs detailed w hs0 hs1 hruns ha
    obtain ⟨a, b, c⟩ := r
    have hau : AllocationsSucceed u := fun k => by rw [eu]; exact ha k
    obtain ⟨out, u', e1, e2⟩ := ih (fun x hx => hsize x (List.mem_cons_of_mem _ hx))
      (rows ++ [{ test := t, cpuTime := a, gpuTime := b, breakdown := c }]) u hau
    refine ⟨out, u', ?_, by simpa using e2⟩
    rw [resultLoop, e]
    exact e1

end MsmCompare

/-! ## Properties of `main.go` -/

namespace MsmCompare

theorem sampleWorld_allocations : AllocationsSucceed sampleWorld := fun _ => rfl

/-- C1. For every `runs ≥ 1`, on a monotonic clock: whenever `runMSMTest` returns,
each of the two averages it returns is the truncated integer quotient by `runs` of the
sum of the durations measured for the `runs` timed repetitions of that runner, so that
with `total` that sum `0 ≤ total - avg * runs < runs`; the sum starts after the
warm-up pass, of which no duration enters it. And `runMSMTest` does return for a test
of 1 to `2^42` elements when every device allocation succeeds. -/
theorem runMSMTest_averages (test : MSMTest) (runs : Int) (detailed : Bool) (w : World)
    (hruns : 1 ≤ runs) (hclock : MonotonicClock w.clock) :
    (∀ cpuAvg gpuAvg breakdown,
      (runMSMTest test runs detailed w).1 = Outcome.ok (cpuAvg, gpuAvg, breakdown) →
        cpuAvg = Int.tdiv (timedCPUTotal w runs.toNat) runs ∧
        0 ≤ timedCPUTotal w runs.toNat - cpuAvg * runs ∧
        timedCPUTotal w runs.toNat - cpuAvg * runs < runs ∧
        gpuAvg = Int.tdiv (timedGPUTotal w runs.toNat detailed) runs ∧
        0 ≤ timedGPUTotal w runs.toNat detailed - gpuAvg * runs ∧
        timedGPUTotal w runs.toNat detailed - gpuAvg * runs < runs) ∧
    (1 ≤ test.Size → test.Size ≤ 2 ^ 42 → AllocationsSucceed w →
      ∃ cpuAvg gpuAvg breakdown,
        (runMSMTest test runs detailed w).1 = Outcome.ok (cpuAvg, gpuAvg, breakdown)) := by
  refine ⟨?_, ?_⟩
  · intro cpuAvg gpuAvg breakdown h
    obtain ⟨h0, h1, _, hr⟩ := runMSMTest_ok_ready test runs detailed w _ h
    obtain ⟨a, b, e, ht⟩ := runMSMTest_positive test runs detailed w h0 h1 hruns hr
    obtain ⟨ea, eb, c2, c3, g2, g3⟩ := ht hclock
    rw [e] at h
    simp only [Outcome.ok.injEq, Prod.mk.injEq] at h
    obtain ⟨ha, hb, _⟩ := h
    subst ha hb
    obtain ⟨_, a2, a3⟩ := goAverage c2 c3 hruns
    obtain ⟨_, b2, b3⟩ := goAverage g2 g3 hruns
    rw [ea, eb]
    exact ⟨rfl, a2, a3, rfl, b2, b3⟩
  · intro h0 h1 ha
    have hn : test.Size.toNat ≠ 0 := by omega
    obtain ⟨a, b, e, _⟩ := runMSMTest_positive test runs detailed w (by omega) h1 hruns
      (LoopReady_of_allocations _ _ w _ (by rw [sampleBases_length]; exact hn)
        (by rw [sampleScalars_length, sampleBases_length]) ha)
    exact ⟨a, b, _, by rw [e]⟩

theorem runMSMTest_averages_witness :
    (1 : Int) ≤ 2 ∧ MonotonicClock sampleWorld.clock ∧
    (∀ cpuAvg gpuAvg breakdown,
      (runMSMTest (MSMTest.mk 3 8 "2^3") 2 true sampleWorld).1 =
          Outcome.ok (cpuAvg, gpuAvg, breakdown) →
        cpuAvg = Int.tdiv (timedCPUTotal sampleWorld (2 : Int).toNat) 2 ∧
        0 ≤ timedCPUTotal sampleWorld (2 : Int).toNat - cpuAvg * 2 ∧
        timedCPUTotal sampleWorld (2 : Int).toNat - cpuAvg * 2 < 2 ∧
        gpuAvg = Int.tdiv (timedGPUTotal sampleWorld (2 : Int).toNat true) 2 ∧
        0 ≤ timedGPUTotal sampleWorld (2 : Int).toNat true - gpuAvg * 2 ∧
        timedGPUTotal sampleWorld (2 : Int).toNat true - gpuAvg * 2 < 2) ∧
    ((1 : Int) ≤ (MSMTest.mk 3 8 "2^3").Size → (MSMTest.mk 3 8 "2^3").Size ≤ 2 ^ 42 →
      AllocationsSucceed sampleWorld →
      ∃ cpuAvg gpuAvg breakdown,
        (runMSMTest (MSMTest.mk 3 8 "2^3") 2 true sampleWorld).1 =
          Outcome.ok (cpuAvg, gpuAvg, breakdown)) :=
  ⟨by decide, sampleWorld_monotonic,
    runMSMTest_averages (MSMTest.mk 3 8 "2^3") 2 true sampleWorld (by decide)
      sampleWorld_monotonic⟩

set_option maxRecDepth 20000 in
/-- The run of the scenario of 8 elements, 2 repetitions and detailed timing in
`sampleWorld`: both CPU repetitions take 100 ns; the first GPU repetition takes
1300 ns and the second 200 ns; each measured stage of the first takes 100 ns out of a
total of 1100 ns. -/
theorem runMSMTest_sampleWorld :
    (runMSMTest (MSMTest.mk 3 8 "2^3") 2 true sampleWorld).1 =
      Outcome.ok (100, 750,
        some { BasesH2D := 100, ScalarsH2D := 100, BasesMontgomery := 100,
               ScalarsMontgomery := 100, MSMCompute := 100, ResultD2H := 0,
               Total := 1100 }) := by
  decide

/-- C3, counterexample. The sweep from `2^44` to `2^45` with one run per test: `make`
rejects the sample slices of the first test, so `main` stops there, before any call of
a runner, and never comes to `2^45`. The sweep from `2^3` to `2^5` with zero runs:
`main` stops in the averaging division of the first test, after its two warm-up
calls. -/
theorem main_sweep_aborted :
    (0 : Int) ≤ 44 ∧ (44 : Int) ≤ 45 ∧ (45 : Int) ≤ 62 ∧
    (main 44 45 1 false sampleWorld).1 = Outcome.panic Panic.makesliceLen ∧
    (main 44 45 1 false sampleWorld).2.calls = [] ∧
    (main 3 5 0 false sampleWorld).1 = Outcome.panic Panic.divideByZero ∧
    (main 3 5 0 false sampleWorld).2.calls.length = 2 := by
  refine ⟨by decide, by decide, by decide, by decide, by decide, by decide, by decide⟩

/-- C3, as amended. For `0 ≤ minDegree ≤ maxDegree ≤ 62` the test-generation loop of
`main` yields a list of `maxDegree - minDegree + 1` tests whose entry number `i` (from
0) has `Degree = minDegree + i` and `Size = 2 ^ Degree`. The results loop takes the
tests in the order of the list and leaves none out: whenever `main`, with the backend
loaded, returns, it has produced one table row per test of the list, in that order;
and it does return when `maxDegree ≤ 42`, `runs` is not zero and every device
allocation succeeds. -/
theorem main_sweep (minDegree maxDegree : Int) (h0 : 0 ≤ minDegree)
    (h1 : minDegree ≤ maxDegree) (h2 : maxDegree ≤ 62) :
    ∃ tests,
      generateTests (maxDegree - minDegree + 1).toNat minDegree [] = Outcome.ok tests ∧
      (tests.length : Int) = maxDegree - minDegree + 1 ∧
      (∀ (i : Nat) (hi : i < tests.length),
        (tests.get ⟨i, hi⟩).Degree = minDegree + i ∧
        (tests.get ⟨i, hi⟩).Size = 2 ^ (tests.get ⟨i, hi⟩).Degree.toNat) ∧
      (∀ (runs : Int) (detailed : Bool) (w : World) (rows : List Row),
        w.backend = EIcicleError.Success →
        (main minDegree maxDegree runs detailed w).1 = Outcome.ok rows →
        rows.map Row.test = tests) ∧
      (∀ (runs : Int) (detailed : Bool) (w : World),
        w.backend = EIcicleError.Success → maxDegree ≤ 42 → runs ≠ 0 →
        AllocationsSucceed w →
        ∃ rows, (main minDegree maxDegree runs detailed w).1 = Outcome.ok rows ∧
          rows.map Row.test = tests) := by
  have hg := generateTests_eq (maxDegree - minDegree + 1).toNat minDegree [] h0
    (by rw [Int.toNat_of_nonneg (by omega)]; omega)
  rw [List.nil_append] at hg
  refine ⟨_, hg, ?_, ?_, ?_, ?_⟩
  · simp only [List.length_map, List.length_range]
    exact Int.toNat_of_nonneg (by omega)
  · intro i hi
    simp [testOfDegree]
  · intro runs detailed w rows hb h
    unfold main at h
    rw [if_neg (by simp [hb]), hg] at h
    simpa using resultLoop_rows runs detailed _ [] w rows h
  · intro runs detailed w hb h42 hruns ha
    obtain ⟨rows, u, e1, e2⟩ := resultLoop_ok runs detailed hruns
      ((List.range (maxDegree - minDegree + 1).toNat).map
        (fun i : Nat => testOfDegree (minDegree + i)))
      (by
        intro t ht
        obtain ⟨i, hi, rfl⟩ := List.mem_map.mp ht
        have hi' : i < (maxDegree - minDegree + 1).toNat := List.mem_range.mp hi
        have hk : (minDegree + (i : Int)).toNat ≤ 42 := by omega
        have hp : (2 : Int) ^ (minDegree + (i : Int)).toNat ≤ 2 ^ 42 :=
          pow_le_pow_right₀ (by norm_num) hk
        have hq : (1 : Int) ≤ 2 ^ (minDegree + (i : Int)).toNat := one_le_pow₀ (by norm_num)
        exact ⟨hq, hp⟩) [] w ha
    refine ⟨rows, ?_, by simpa using e2⟩
    unfold main
    rw [if_neg (by simp [hb]), hg]
    simp only [e1]

theorem main_sweep_witness :
    (0 : Int) ≤ 3 ∧ (3 : Int) ≤ 5 ∧ (5 : Int) ≤ 62 ∧
    ∃ tests,
      generateTests ((5 : Int) - 3 + 1).toNat 3 [] = Outcome.ok tests ∧
      (tests.length : Int) = 5 - 3 + 1 ∧
      (∀ (i : Nat) (hi : i < tests.length),
        (tests.get ⟨i, hi⟩).Degree = 3 + i ∧
        (tests.get ⟨i, hi⟩).Size = 2 ^ (tests.get ⟨i, hi⟩).Degree.toNat) ∧
      (∀ (runs : Int) (detailed : Bool) (w : World) (rows : List Row),
        w.backend = EIcicleError.Success →
        (main 3 5 runs detailed w).1 = Outcome.ok rows →
        rows.map Row.test = tests) ∧
      (∀ (runs : Int) (detailed : Bool) (w : World),
        w.backend = EIcicleError.Success → (5 : Int) ≤ 42 → runs ≠ 0 →
        AllocationsSucceed w →
        ∃ rows, (main 3 5 runs detailed w).1 = Outcome.ok rows ∧
          rows.map Row.test = tests) :=
  ⟨by decide, by decide, by decide, main_sweep 3 5 (by decide) (by decide) (by decide)⟩

set_option maxRecDepth 20000 in
/-- The sweep from `2^3` to `2^5`, and the rows `main` produces for it in
`sampleWorld` with one run per test. -/
theorem main_sampleWorld :
    generateTests ((5 : Int) - 3 + 1).toNat 3 [] =
      Outcome.ok [MSMTest.mk 3 8 "2^3", MSMTest.mk 4 16 "2^4", MSMTest.mk 5 32 "2^5"] ∧
    (main 3 5 1 false sampleWorld).1 =
      Outcome.ok [Row.mk (MSMTest.mk 3 8 "2^3") 100 200 none,
        Row.mk (MSMTest.mk 4 16 "2^4") 100 200 none,
        Row.mk (MSMTest.mk 5 32 "2^5") 100 200 none] := by
  constructor <;> decide


theorem runGPUMSM_ok_ready (bases : List G1Affine) (scalars : List Fr) (mt : Bool) (w : World)
    (r : G1Affine × Option GPUTimingBreakdown)
    (h : (runGPUMSM bases scalars mt w).1 = Outcome.ok r) : GPUReady bases scalars w := by
  by_contra hn
  obtain ⟨p, _, hp, _⟩ := runGPUMSM_of_not_ready bases scalars mt w hn
  rw [hp] at h
  cases h

theorem sampleWorld_ready : GPUReady [{ X := 1, Y := 2 }] [5] sampleWorld :=
  ⟨by decide, rfl, by decide, rfl, Or.inl rfl⟩

/-- C4. Under a monotonic clock, every breakdown returned by `runGPUMSM` with
`measureTiming = true` has seven non-negative fields, a `ResultD2H` of zero and six
stage fields that add up to at most `Total`; and `runGPUMSM` does return one whenever
its call gets through the wrapper (non-empty inputs, both allocations succeed, the
lengths pass the check of the MSM call). -/
theorem runGPUMSM_breakdown_sum_le_total (bases : List G1Affine) (scalars : List Fr)
    (w : World) (hclock : MonotonicClock w.clock) :
    (∀ point breakdown,
      (runGPUMSM bases scalars true w).1 = Outcome.ok (point, breakdown) →
      ∃ b, breakdown = some b ∧
        0 ≤ b.BasesH2D ∧ 0 ≤ b.ScalarsH2D ∧ 0 ≤ b.BasesMontgomery ∧
        0 ≤ b.ScalarsMontgomery ∧ 0 ≤ b.MSMCompute ∧ 0 ≤ b.ResultD2H ∧ 0 ≤ b.Total ∧
        b.ResultD2H = 0 ∧
        b.BasesH2D + b.ScalarsH2D + b.BasesMontgomery + b.ScalarsMontgomery + b.MSMCompute
          + b.ResultD2H ≤ b.Total) ∧
    (GPUReady bases scalars w →
      ∃ point b, (runGPUMSM bases scalars true w).1 = Outcome.ok (point, some b)) := by
  refine ⟨?_, fun hr => ⟨_, measuredBreakdown w, by rw [runGPUMSM_of_ready _ _ _ _ hr]; rfl⟩⟩
  intro point breakdown h
  have hr := runGPUMSM_ok_ready _ _ _ _ _ h
  rw [runGPUMSM_of_ready _ _ _ _ hr] at h
  simp only [if_true, Outcome.ok.injEq, Prod.mk.injEq] at h
  refine ⟨measuredBreakdown w, h.2.symm, ?_⟩
  have m : ∀ i j : Nat, i ≤ j → w.clock i ≤ w.clock j := fun i j hij =>
    monotonicClock_le hclock hij
  have h0 := m w.tick (w.tick + 1) (by omega)
  have h1 := m (w.tick + 1) (w.tick + 2) (by omega)
  have h2 := m (w.tick + 2) (w.tick + 3) (by omega)
  have h3 := m (w.tick + 3) (w.tick + 4) (by omega)
  have h4 := m (w.tick + 4) (w.tick + 5) (by omega)
  have h5 := m (w.tick + 5) (w.tick + 6) (by omega)
  have h6 := m (w.tick + 6) (w.tick + 7) (by omega)
  have h7 := m (w.tick + 7) (w.tick + 8) (by omega)
  have h8 := m (w.tick + 8) (w.tick + 9) (by omega)
  have h9 := m (w.tick + 9) (w.tick + 10) (by omega)
  have h10 := m (w.tick + 10) (w.tick + 11) (by omega)
  simp only [measuredBreakdown,
    satInt64_sub hclock (show w.tick + 1 ≤ w.tick + 2 by omega),
    satInt64_sub hclock (show w.tick + 3 ≤ w.tick + 4 by omega),
    satInt64_sub hclock (show w.tick + 5 ≤ w.tick + 6 by omega),
    satInt64_sub hclock (show w.tick + 7 ≤ w.tick + 8 by omega),
    satInt64_sub hclock (show w.tick + 9 ≤ w.tick + 10 by omega),
    satInt64_sub hclock (show w.tick ≤ w.tick + 11 by omega)]
  refine ⟨?_, ?_, ?_, ?_, ?_, ?_, ?_, ?_, ?_⟩ <;> dsimp only
  all_goals linarith

theorem runGPUMSM_breakdown_sum_le_total_witness :
    MonotonicClock sampleWorld.clock ∧
    (∀ point breakdown,
      (runGPUMSM [{ X := 1, Y := 2 }] [5] true sampleWorld).1 = Outcome.ok (point, breakdown) →
      ∃ b, breakdown = some b ∧
        0 ≤ b.BasesH2D ∧ 0 ≤ b.ScalarsH2D ∧ 0 ≤ b.BasesMontgomery ∧
        0 ≤ b.ScalarsMontgomery ∧ 0 ≤ b.MSMCompute ∧ 0 ≤ b.ResultD2H ∧ 0 ≤ b.Total ∧
        b.ResultD2H = 0 ∧
        b.BasesH2D + b.ScalarsH2D + b.BasesMontgomery + b.ScalarsMontgomery + b.MSMCompute
          + b.ResultD2H ≤ b.Total) ∧
    (GPUReady [{ X := 1, Y := 2 }] [5] sampleWorld →
      ∃ point b,
        (runGPUMSM [{ X := 1, Y := 2 }] [5] true sampleWorld).1 = Outcome.ok (point, some b)) :=
  ⟨sampleWorld_monotonic,
    runGPUMSM_breakdown_sum_le_total [{ X := 1, Y := 2 }] [5] sampleWorld sampleWorld_monotonic⟩

set_option maxRecDepth 20000 in
/-- The run of `runGPUMSM` with `measureTiming = true` on one base and one scalar in
`sampleWorld`. -/
theorem runGPUMSM_sampleWorld :
    (runGPUMSM [{ X := 1, Y := 2 }] [5] true sampleWorld).1 =
      Outcome.ok ({ X := 3, Y := 4 },
        some { BasesH2D := 100, ScalarsH2D := 100, BasesMontgomery := 100,
               ScalarsMontgomery := 100, MSMCompute := 100, ResultD2H := 0,
               Total := 1100 }) ∧
    (runGPUMSM [{ X := 1, Y := 2 }] [5] true sampleWorld).2.device = deviceTrace 1 1 := by
  constructor <;> decide

set_option maxRecDepth 20000 in
/-- C5, counterexample. In `statusFailureWorld` every device allocation succeeds and
both Montgomery conversions, the MSM call and both frees report failure; yet
`runGPUMSM` returns a point, the conversion of the untouched zero result buffer, and
`runMSMTest` returns averages computed over such runs: the run is not aborted. In
`allocationFailureWorld` the second allocation fails: `runGPUMSM` is aborted, but the
buffer it had allocated is not released. -/
theorem runGPUMSM_failure_not_fatal :
    AllocationsSucceed statusFailureWorld ∧
    (∀ k, statusFailureWorld.status k = EIcicleError.Failure) ∧
    (runGPUMSM [{ X := 1, Y := 2 }] [5] false statusFailureWorld).1 =
      Outcome.ok ({ X := 0, Y := 0 }, none) ∧
    (runGPUMSM [{ X := 1, Y := 2 }] [5] false statusFailureWorld).2.device = deviceTrace 1 1 ∧
    (runMSMTest { Degree := 0, Size := 1, Description := "2^0" } 1 false
        statusFailureWorld).1 = Outcome.ok (100, 200, none) ∧
    allocationFailureWorld.alloc 1 = EIcicleError.Failure ∧
    (runGPUMSM [{ X := 1, Y := 2 }] [5] false allocationFailureWorld).1 =
      Outcome.panic Panic.deviceAllocation ∧
    allocated (runGPUMSM [{ X := 1, Y := 2 }] [5] false allocationFailureWorld).2.device =
      [Buffer.basesDevice] ∧
    freed (runGPUMSM [{ X := 1, Y := 2 }] [5] false allocationFailureWorld).2.device = [] := by
  refine ⟨fun _ => rfl, fun _ => rfl, by decide, by decide, by decide, by decide, by decide,
    by decide, by decide⟩

/-- C5, as amended. A run of `runGPUMSM` is aborted exactly when the library wrapper
panics: a host slice is empty, a device allocation fails or the MSM call rejects the
lengths. It then returns nothing and has released no buffer. In every other case
`runGPUMSM` runs to its end whatever status the Montgomery conversions, the MSM call
and the frees report: what it returns does not depend on these statuses, the point
returned is the conversion of what the MSM call left in the host result buffer, and
its device-facing calls are those of `deviceTrace`, which end with the release of the
two device buffers. -/
theorem runGPUMSM_failures (bases : List G1Affine) (scalars : List Fr)
    (measureTiming : Bool) (w : World) :
    (¬ GPUReady bases scalars w →
      ∃ p evs, (runGPUMSM bases scalars measureTiming w).1 = Outcome.panic p ∧
        (p = Panic.deviceAllocation ∨ p = Panic.msmLengths) ∧
        (runGPUMSM bases scalars measureTiming w).2.device = w.device ++ evs ∧
        freed evs = []) ∧
    (GPUReady bases scalars w →
      ∀ status' : Nat → EIcicleError,
        (runGPUMSM bases scalars measureTiming { w with status := status' }).1 =
          Outcome.ok (projectiveToGnarkAffine w (w.msmOut (w.ops + 2)),
            if measureTiming then some (measuredBreakdown w) else none) ∧
        (runGPUMSM bases scalars measureTiming { w with status := status' }).2.device =
          w.device ++ deviceTrace bases.length scalars.length) := by
  refine ⟨?_, ?_⟩
  · intro h
    obtain ⟨p, evs, h1, h2, h3, h4, _⟩ := runGPUMSM_of_not_ready bases scalars measureTiming w h
    exact ⟨p, evs, h1, h2, h3, h4⟩
  · intro h status'
    have h' : GPUReady bases scalars { w with status := status' } := h
    rw [runGPUMSM_of_ready _ _ _ _ h']
    exact ⟨rfl, rfl⟩

set_option maxRecDepth 20000 in
/-- C6, counterexample. In `allocationFailureWorld` the second device allocation
fails: the run of `runGPUMSM` is aborted in the wrapper after it has allocated
`basesDevice`, and it frees nothing. -/
theorem runGPUMSM_allocation_leak :
    (runGPUMSM [{ X := 1, Y := 2 }, { X := 3, Y := 4 }] [5, 6] true
        allocationFailureWorld).1 = Outcome.panic Panic.deviceAllocation ∧
    (runGPUMSM [{ X := 1, Y := 2 }, { X := 3, Y := 4 }] [5, 6] true
        allocationFailureWorld).2.device =
      [DeviceEvent.malloc Buffer.basesDevice 2, DeviceEvent.copyToDevice Buffer.basesDevice 2] ∧
    allocated (runGPUMSM [{ X := 1, Y := 2 }, { X := 3, Y := 4 }] [5, 6] true
        allocationFailureWorld).2.device = [Buffer.basesDevice] ∧
    freed (runGPUMSM [{ X := 1, Y := 2 }, { X := 3, Y := 4 }] [5, 6] true
        allocationFailureWorld).2.device = [] := by
  refine ⟨by decide, by decide, by decide, by decide⟩

/-- C6, as amended. For both values of `measureTiming` and whatever status the
conversions, the MSM call and the frees report: the device-facing calls of a run of
`runGPUMSM` that returns are some calls that allocate exactly `basesDevice` and
`scalarsDevice` and free nothing, then the MSM call, then the free of `basesDevice`
and the free of `scalarsDevice`, after which the function makes no further
device-facing call; so each of the two buffers allocated is freed exactly once, after
the MSM call. A run returns exactly when its call gets through the wrapper; a run
that is aborted there frees nothing. -/
theorem runGPUMSM_allocations_match_frees (bases : List G1Affine) (scalars : List Fr)
    (measureTiming : Bool) (w : World) :
    (∀ r, (runGPUMSM bases scalars measureTiming w).1 = Outcome.ok r →
      ∃ before,
        (runGPUMSM bases scalars measureTiming w).2.device =
          w.device ++ (before ++
            [DeviceEvent.msm (Slice.device Buffer.scalarsDevice)
               (Slice.device Buffer.basesDevice),
             DeviceEvent.free Buffer.basesDevice, DeviceEvent.free Buffer.scalarsDevice]) ∧
        allocated before = [Buffer.basesDevice, Buffer.scalarsDevice] ∧
        freed before = [] ∧
        (allocated (deviceTrace bases.length scalars.length)).length =
          (freed (deviceTrace bases.length scalars.length)).length) ∧
    ((∃ r, (runGPUMSM bases scalars measureTiming w).1 = Outcome.ok r) ↔
      GPUReady bases scalars w) ∧
    (∀ p, (runGPUMSM bases scalars measureTiming w).1 = Outcome.panic p →
      ∃ evs, (runGPUMSM bases scalars measureTiming w).2.device = w.device ++ evs ∧
        freed evs = []) := by
  refine ⟨?_, ⟨?_, ?_⟩, ?_⟩
  · intro r h
    have hr := runGPUMSM_ok_ready _ _ _ _ _ h
    rw [runGPUMSM_of_ready _ _ _ _ hr]
    exact ⟨[DeviceEvent.malloc Buffer.basesDevice bases.length,
      DeviceEvent.copyToDevice Buffer.basesDevice bases.length,
      DeviceEvent.malloc Buffer.scalarsDevice scalars.length,
      DeviceEvent.copyToDevice Buffer.scalarsDevice scalars.length,
      DeviceEvent.affineFromMontgomery Buffer.basesDevice,
      DeviceEvent.fromMontgomery Buffer.scalarsDevice], rfl, rfl, rfl, rfl⟩
  · rintro ⟨r, h⟩
    exact runGPUMSM_ok_ready _ _ _ _ _ h
  · intro hr
    exact ⟨_, by rw [runGPUMSM_of_ready _ _ _ _ hr]⟩
  · intro p h
    by_cases hr : GPUReady bases scalars w
    · rw [runGPUMSM_of_ready _ _ _ _ hr] at h
      cases h
    · obtain ⟨_, evs, _, _, h3, h4, _⟩ := runGPUMSM_of_not_ready bases scalars measureTiming w hr
      exact ⟨evs, h3, h4⟩


theorem firstTimedGPUWorld_ready (bases : List G1Affine) (scalars : List Fr) (w : World)
    (n runs m : Nat) (h : LoopReady bases scalars w (m + 2)) :
    GPUReady bases scalars (firstTimedGPUWorld w n runs) :=
  h 1 (by omega)

set_option maxRecDepth 20000 in
/-- C7, counterexample. A test of `n = 0` elements (the one `main` builds for degree
64, as `1 << 64` is 0) with one run: the wrapper panics in the warm-up call of
`runGPUMSM`, which is entered once and returns nothing, after a single call of
`runCPUMSM`; no timed repetition is made. A test of `2^44` elements: `make` panics
before any sample is drawn and before any call of a runner. -/
theorem runMSMTest_empty_sample :
    (0 : Int) ≤ (MSMTest.mk 64 0 "2^64").Size ∧ (1 : Int) ≤ 1 ∧
    generateTests 1 64 [] = Outcome.ok [MSMTest.mk 64 0 "2^64"] ∧
    (runMSMTest (MSMTest.mk 64 0 "2^64") 1 false sampleWorld).1 =
      Outcome.panic Panic.deviceAllocation ∧
    (runMSMTest (MSMTest.mk 64 0 "2^64") 1 false sampleWorld).2.calls =
      [Call.runCPUMSM [] [], Call.runGPUMSM [] [] false] ∧
    (runMSMTest (MSMTest.mk 44 (2 ^ 44) "2^44") 1 false sampleWorld).1 =
      Outcome.panic Panic.makesliceLen ∧
    (runMSMTest (MSMTest.mk 44 (2 ^ 44) "2^44") 1 false sampleWorld).2.calls = [] ∧
    (runMSMTest (MSMTest.mk 44 (2 ^ 44) "2^44") 1 false sampleWorld).2.drawn = 0 := by
  refine ⟨by decide, by decide, by decide, by decide, by decide, by decide, by decide,
    by decide⟩

/-- C7, as amended. For a test of `n` elements with `1 ≤ n ≤ 2^42` and `runs ≥ 1`,
when every device allocation succeeds, `runMSMTest` returns after drawing one sample
set of `n` scalars and `n` bases and calling the runners in this order, always on that
sample set: `runCPUMSM` and `runGPUMSM` with detail off (the warm-up), `runs` times
`runCPUMSM`, then `runs` times `runGPUMSM`; that is `1 + runs` calls of each runner.
On a monotonic clock the averages returned are those of the durations of the timed
calls alone. -/
theorem runMSMTest_calls (test : MSMTest) (runs : Int) (detailed : Bool) (w : World)
    (hsize : 1 ≤ test.Size) (hmax : test.Size ≤ 2 ^ 42) (hruns : 1 ≤ runs)
    (halloc : AllocationsSucceed w) :
    ∃ scalars bases result w',
      (scalars.length : Int) = test.Size ∧ (bases.length : Int) = test.Size ∧
      runMSMTest test runs detailed w = (Outcome.ok result, w') ∧
      w'.drawn = w.drawn + scalars.length + bases.length ∧
      w'.calls = w.calls ++
        ([Call.runCPUMSM bases scalars, Call.runGPUMSM bases scalars false] ++
          List.replicate runs.toNat (Call.runCPUMSM bases scalars) ++
          (Call.runGPUMSM bases scalars detailed ::
            List.replicate (runs.toNat - 1) (Call.runGPUMSM bases scalars false))) ∧
      (((w'.calls.drop w.calls.length).countP Call.isCPU : Nat) : Int) = 1 + runs ∧
      (((w'.calls.drop w.calls.length).countP Call.isGPU : Nat) : Int) = 1 + runs ∧
      (MonotonicClock w.clock →
        result.1 = Int.tdiv (timedCPUTotal w runs.toNat) runs ∧
        result.2.1 = Int.tdiv (timedGPUTotal w runs.toNat detailed) runs) := by
  have hn : test.Size.toNat ≠ 0 := by omega
  have hsize0 : 0 ≤ test.Size := by omega
  obtain ⟨m, hm⟩ : ∃ m, runs.toNat = m + 1 := ⟨runs.toNat - 1, by omega⟩
  obtain ⟨a, b, e, ht⟩ := runMSMTest_positive test runs detailed w hsize0 hmax hruns
    (LoopReady_of_allocations _ _ w _ (by rw [sampleBases_length]; exact hn)
      (by rw [sampleScalars_length, sampleBases_length]) halloc)
  refine ⟨sampleScalars w test.Size.toNat, sampleBases w test.Size.toNat, _, _, ?_, ?_,
    e, ?_, rfl, ?_, ?_, ?_⟩
  · rw [sampleScalars_length]; exact Int.toNat_of_nonneg hsize0
  · rw [sampleBases_length]; exact Int.toNat_of_nonneg hsize0
  · rw [sampleScalars_length, sampleBases_length]
    show w.drawn + 2 * test.Size.toNat = _
    omega
  · simp [afterTimedRuns, List.countP_cons, List.countP_replicate, Call.isCPU,
      List.countP_append]
    omega
  · simp [afterTimedRuns, List.countP_cons, List.countP_replicate, Call.isGPU,
      List.countP_append]
    omega
  · intro hclock
    obtain ⟨ea, eb, _⟩ := ht hclock
    exact ⟨ea, eb⟩

theorem runMSMTest_calls_witness :
    (1 : Int) ≤ (MSMTest.mk 3 8 "2^3").Size ∧ (MSMTest.mk 3 8 "2^3").Size ≤ 2 ^ 42 ∧
    (1 : Int) ≤ 2 ∧ AllocationsSucceed sampleWorld ∧
    ∃ scalars bases result w',
      (scalars.length : Int) = (MSMTest.mk 3 8 "2^3").Size ∧
      (bases.length : Int) = (MSMTest.mk 3 8 "2^3").Size ∧
      runMSMTest (MSMTest.mk 3 8 "2^3") 2 false sampleWorld = (Outcome.ok result, w') ∧
      w'.drawn = sampleWorld.drawn + scalars.length + bases.length ∧
      w'.calls = sampleWorld.calls ++
        ([Call.runCPUMSM bases scalars, Call.runGPUMSM bases scalars false] ++
          List.replicate (2 : Int).toNat (Call.runCPUMSM bases scalars) ++
          (Call.runGPUMSM bases scalars false ::
            List.replicate ((2 : Int).toNat - 1) (Call.runGPUMSM bases scalars false))) ∧
      (((w'.calls.drop sampleWorld.calls.length).countP Call.isCPU : Nat) : Int) = 1 + 2 ∧
      (((w'.calls.drop sampleWorld.calls.length).countP Call.isGPU : Nat) : Int) = 1 + 2 ∧
      (MonotonicClock sampleWorld.clock →
        result.1 = Int.tdiv (timedCPUTotal sampleWorld (2 : Int).toNat) 2 ∧
        result.2.1 = Int.tdiv (timedGPUTotal sampleWorld (2 : Int).toNat false) 2) :=
  ⟨by decide, by decide, by decide, sampleWorld_allocations,
    runMSMTest_calls (MSMTest.mk 3 8 "2^3") 2 false sampleWorld (by decide) (by decide)
      (by decide) sampleWorld_allocations⟩

/-- C8. For `runs ≥ 1`: whenever `runMSMTest` returns, with `wFirst` the world in
which the first timed GPU repetition calls `runGPUMSM` (right after the warm-up and
the `runs` CPU repetitions), that call is made with `measureTiming = detailed` and the
`runs - 1` later calls with `measureTiming = false`; the breakdown returned by
`runMSMTest` is the one that first call returns, which is nil when `detailed` is
false; and on a monotonic clock the GPU average is taken over all `runs` repetitions.
A breakdown returned by `runGPUMSM` is nil exactly when `measureTiming` is false. And
`runMSMTest` does return for a test of 1 to `2^42` elements when every device
allocation succeeds. -/
theorem runMSMTest_breakdown (test : MSMTest) (runs : Int) (detailed : Bool) (w : World)
    (hruns : 1 ≤ runs) :
    (∀ cpuAvg gpuAvg breakdown w',
      runMSMTest test runs detailed w = (Outcome.ok (cpuAvg, gpuAvg, breakdown), w') →
      ∃ scalars bases wFirst point,
        wFirst.clock = w.clock ∧ wFirst.tick = w.tick + 2 + 2 * runs.toNat ∧
        wFirst.calls = w.calls ++
          ([Call.runCPUMSM bases scalars, Call.runGPUMSM bases scalars false] ++
            List.replicate runs.toNat (Call.runCPUMSM bases scalars)) ∧
        w'.calls = wFirst.calls ++
          (Call.runGPUMSM bases scalars detailed ::
            List.replicate (runs.toNat - 1) (Call.runGPUMSM bases scalars false)) ∧
        (runGPUMSM bases scalars detailed wFirst).1 = Outcome.ok (point, breakdown) ∧
        (detailed = false → breakdown = none) ∧
        (MonotonicClock w.clock →
          gpuAvg = Int.tdiv (timedGPUTotal w runs.toNat detailed) runs)) ∧
    (∀ (b : List G1Affine) (s : List Fr) (measureTiming : Bool) (u : World) (point : G1Affine)
        (bd : Option GPUTimingBreakdown),
      (runGPUMSM b s measureTiming u).1 = Outcome.ok (point, bd) →
        (bd = none ↔ measureTiming = false)) ∧
    (1 ≤ test.Size → test.Size ≤ 2 ^ 42 → AllocationsSucceed w →
      ∃ cpuAvg gpuAvg breakdown w',
        runMSMTest test runs detailed w = (Outcome.ok (cpuAvg, gpuAvg, breakdown), w')) := by
  refine ⟨?_, ?_, ?_⟩
  · intro cpuAvg gpuAvg breakdown w' h
    obtain ⟨h0, h1, _, hr⟩ := runMSMTest_ok_ready test runs detailed w _
      (by rw [h])
    obtain ⟨a, b, e, ht⟩ := runMSMTest_positive test runs detailed w h0 h1 hruns hr
    obtain ⟨m, hm⟩ : ∃ m, runs.toNat = m + 1 := ⟨runs.toNat - 1, by omega⟩
    rw [e] at h
    simp only [Prod.mk.injEq, Outcome.ok.injEq] at h
    obtain ⟨⟨ha, hb, hbd⟩, hw'⟩ := h
    subst ha hb hbd hw'
    have hready : GPUReady (sampleBases w test.Size.toNat) (sampleScalars w test.Size.toNat)
        (firstTimedGPUWorld w test.Size.toNat runs.toNat) :=
      firstTimedGPUWorld_ready _ _ w _ _ m (by rw [hm] at hr; exact hr)
    refine ⟨sampleScalars w test.Size.toNat, sampleBases w test.Size.toNat,
      firstTimedGPUWorld w test.Size.toNat runs.toNat,
      projectiveToGnarkAffine (firstTimedGPUWorld w test.Size.toNat runs.toNat)
        ((firstTimedGPUWorld w test.Size.toNat runs.toNat).msmOut
          ((firstTimedGPUWorld w test.Size.toNat runs.toNat).ops + 2)),
      rfl, rfl, ?_, ?_, ?_, ?_, ?_⟩
    · simp [firstTimedGPUWorld, afterWarmUp]
    · simp [firstTimedGPUWorld, afterWarmUp, afterTimedRuns]
    · rw [runGPUMSM_of_ready _ _ _ _ hready]
    · intro hd
      simp [hd]
    · intro hclock
      exact (ht hclock).2.1
  · intro b s measureTiming u point bd h
    have hr := runGPUMSM_ok_ready _ _ _ _ _ h
    rw [runGPUMSM_of_ready _ _ _ _ hr] at h
    simp only [Outcome.ok.injEq, Prod.mk.injEq] at h
    rw [← h.2]
    cases measureTiming <;> simp
  · intro h0 h1 ha
    have hn : test.Size.toNat ≠ 0 := by omega
    obtain ⟨a, b, e, _⟩ := runMSMTest_positive test runs detailed w (by omega) h1 hruns
      (LoopReady_of_allocations _ _ w _ (by rw [sampleBases_length]; exact hn)
        (by rw [sampleScalars_length, sampleBases_length]) ha)
    exact ⟨a, b, _, _, e⟩

theorem runMSMTest_breakdown_witness :
    (1 : Int) ≤ 3 ∧
    (∀ cpuAvg gpuAvg breakdown w',
      runMSMTest (MSMTest.mk 3 8 "2^3") 3 true sampleWorld =
          (Outcome.ok (cpuAvg, gpuAvg, breakdown), w') →
      ∃ scalars bases wFirst point,
        wFirst.clock = sampleWorld.clock ∧
        wFirst.tick = sampleWorld.tick + 2 + 2 * (3 : Int).toNat ∧
        wFirst.calls = sampleWorld.calls ++
          ([Call.runCPUMSM bases scalars, Call.runGPUMSM bases scalars false] ++
            List.replicate (3 : Int).toNat (Call.runCPUMSM bases scalars)) ∧
        w'.calls = wFirst.calls ++
          (Call.runGPUMSM bases scalars true ::
            List.replicate ((3 : Int).toNat - 1) (Call.runGPUMSM bases scalars false)) ∧
        (runGPUMSM bases scalars true wFirst).1 = Outcome.ok (point, breakdown) ∧
        (true = false → breakdown = none) ∧
        (MonotonicClock sampleWorld.clock →
          gpuAvg = Int.tdiv (timedGPUTotal sampleWorld (3 : Int).toNat true) 3)) ∧
    (∀ (b : List G1Affine) (s : List Fr) (measureTiming : Bool) (u : World) (point : G1Affine)
        (bd : Option GPUTimingBreakdown),
      (runGPUMSM b s measureTiming u).1 = Outcome.ok (point, bd) →
        (bd = none ↔ measureTiming = false)) ∧
    ((1 : Int) ≤ (MSMTest.mk 3 8 "2^3").Size → (MSMTest.mk 3 8 "2^3").Size ≤ 2 ^ 42 →
      AllocationsSucceed sampleWorld →
      ∃ cpuAvg gpuAvg breakdown w',
        runMSMTest (MSMTest.mk 3 8 "2^3") 3 true sampleWorld =
          (Outcome.ok (cpuAvg, gpuAvg, breakdown), w')) :=
  ⟨by decide, runMSMTest_breakdown (MSMTest.mk 3 8 "2^3") 3 true sampleWorld (by decide)⟩

set_option maxRecDepth 20000 in
/-- The run of the scenario of 8 elements and 3 repetitions in `sampleWorld`, with
detailed timing and without: the breakdown returned is that of the first repetition
(a total of 1100 ns), or nil. -/
theorem runMSMTest_sampleWorld_breakdown :
    (runMSMTest (MSMTest.mk 3 8 "2^3") 3 true sampleWorld).1 =
      Outcome.ok (100, 566,
        some { BasesH2D := 100, ScalarsH2D := 100, BasesMontgomery := 100,
               ScalarsMontgomery := 100, MSMCompute := 100, ResultD2H := 0,
               Total := 1100 }) ∧
    (runMSMTest (MSMTest.mk 3 8 "2^3") 3 false sampleWorld).1 = Outcome.ok (100, 200, none) := by
  constructor <;> decide


theorem formatDuration_microseconds (secondsText : Duration → String) (d : Duration)
    (h0 : Microsecond ≤ d) (h1 : d < Millisecond) :
    formatDuration secondsText d = toString (Int.tdiv d 1000) ++ ".00" ++ " Î¼s" := by
  rw [formatDuration, if_neg (not_lt.mpr h0), if_pos h1, fixed2OfInt]

theorem formatDuration_milliseconds (secondsText : Duration → String) (d : Duration)
    (h0 : Millisecond ≤ d) (h1 : d < Second) :
    formatDuration secondsText d = toString (Int.tdiv d 1000000) ++ ".00" ++ " ms" := by
  have h2 : Microsecond ≤ d := le_trans (by decide) h0
  rw [formatDuration, if_neg (not_lt.mpr h2), if_neg (not_lt.mpr h0), if_pos h1, fixed2OfInt]

/-- C9. The code at the duration of 1500 ns, which is 1.50 microseconds: whatever the
seconds branch does, `formatDuration` prints the truncated microsecond count 1 with two
zero decimals. -/
theorem formatDuration_truncates (secondsText : Duration → String) :
    formatDuration secondsText 1500 = "1.00 Î¼s" := by
  rw [formatDuration_microseconds secondsText 1500 (by decide) (by decide)]
  decide

end MsmCompare

/-! ## Properties of `icicle_official_example.go` -/

namespace OfficialExample

open MsmCompare

theorem benchIteration_device_calls (size : Nat) (w : World) (hsize : size ≠ 0)
    (h1 : w.alloc w.allocs = EIcicleError.Success)
    (h2 : w.alloc (w.allocs + 1) = EIcicleError.Success) :
    ∃ evs, (benchIteration size w).2.device = w.device ++ evs ∧
      allocated evs = [Buffer.scalarsDevice, Buffer.pointsDevice] ∧
      freed evs = (if w.status w.ops = EIcicleError.Success then [Buffer.scalarsDevice]
        else []) := by
  by_cases h : w.status w.ops = EIcicleError.Success
  · refine ⟨[DeviceEvent.malloc Buffer.scalarsDevice size,
      DeviceEvent.copyToDevice Buffer.scalarsDevice size,
      DeviceEvent.malloc Buffer.pointsDevice size,
      DeviceEvent.copyToDevice Buffer.pointsDevice size,
      DeviceEvent.msm (Slice.device Buffer.scalarsDevice) (Slice.device Buffer.pointsDevice),
      DeviceEvent.free Buffer.scalarsDevice], ?_, rfl, ?_⟩
    · simp [benchIteration, timeNow, timeSince, copyToDevice, msm, free, deviceCall, h, h1, h2,
        hsize]
    · simp [h, freed]
  · refine ⟨[DeviceEvent.malloc Buffer.scalarsDevice size,
      DeviceEvent.copyToDevice Buffer.scalarsDevice size,
      DeviceEvent.malloc Buffer.pointsDevice size,
      DeviceEvent.copyToDevice Buffer.pointsDevice size,
      DeviceEvent.msm (Slice.device Buffer.scalarsDevice) (Slice.device Buffer.pointsDevice)],
      ?_, rfl, ?_⟩
    · simp [benchIteration, timeNow, timeSince, copyToDevice, msm, free, deviceCall, h, h1, h2,
        hsize]
    · simp [h, freed]

set_option maxRecDepth 20000 in
/-- C10. The code on two scalars and two points with every device-facing call
succeeding: one benchmark iteration allocates `scalarsDevice` and `pointsDevice` and
frees `scalarsDevice` only, so after three iterations of the loop six buffers have been
allocated and three freed. -/
theorem benchIteration_leaks_pointsDevice :
    (benchIteration 2 sampleWorld).2.device =
      [DeviceEvent.malloc Buffer.scalarsDevice 2, DeviceEvent.copyToDevice Buffer.scalarsDevice 2,
       DeviceEvent.malloc Buffer.pointsDevice 2, DeviceEvent.copyToDevice Buffer.pointsDevice 2,
       DeviceEvent.msm (Slice.device Buffer.scalarsDevice) (Slice.device Buffer.pointsDevice),
       DeviceEvent.free Buffer.scalarsDevice] ∧
    allocated (benchIteration 2 sampleWorld).2.device =
      [Buffer.scalarsDevice, Buffer.pointsDevice] ∧
    freed (benchIteration 2 sampleWorld).2.device = [Buffer.scalarsDevice] ∧
    (allocated (benchLoop 2 3 { runDuration := 0, copyDuration := 0, msmDuration := 0 }
      sampleWorld).2.device).length = 6 ∧
    (freed (benchLoop 2 3 { runDuration := 0, copyDuration := 0, msmDuration := 0 }
      sampleWorld).2.device).length = 3 := by
  refine ⟨by decide, by decide, by decide, by decide, by decide⟩

end OfficialExample

/-! ## Number of runs not positive -/

namespace MsmCompare

theorem resultLoop_negative_runs (runs : Int) (detailed : Bool) (hruns : runs < 0)
    (tests : List MSMTest) (hsize : ∀ t ∈ tests, 1 ≤ t.Size ∧ t.Size ≤ 2 ^ 42)
    (rows : List Row) (w : World) (ha : AllocationsSucceed w) :
    ∃ w', resultLoop runs detailed tests rows w =
      (Outcome.ok (rows ++ tests.map
        (fun t => { test := t, cpuTime := 0, gpuTime := 0, breakdown := none })), w') := by
  induction tests generalizing rows w with
  | nil => exact ⟨w, by simp [resultLoop]⟩
  | cons t rest ih =>
    obtain ⟨hs0, hs1⟩ := hsize t (List.mem_cons_self _ _)
    have ht := runMSMTest_negative_runs t runs detailed w (by omega) hs1
      (GPUReady_of_allocations w _ (by omega) ha) hruns
    simp only [resultLoop, ht]
    obtain ⟨w', e⟩ := ih (fun u hu => hsize u (List.mem_cons_of_mem _ hu))
      (rows ++ [{ test := t, cpuTime := 0, gpuTime := 0, breakdown := none }])
      (afterWarmUp w t.Size.toNat) ha
    exact ⟨w', by simpa using e⟩

theorem testOfDegree_size (d : Int) (h0 : 0 ≤ d) (h1 : d ≤ 42) :
    1 ≤ (testOfDegree d).Size ∧ (testOfDegree d).Size ≤ 2 ^ 42 := by
  have hk : d.toNat ≤ 42 := by omega
  have hp : (2 : Int) ^ d.toNat ≤ 2 ^ 42 := pow_le_pow_right₀ (by norm_num) hk
  have hq : (1 : Int) ≤ 2 ^ d.toNat := one_le_pow₀ (by norm_num)
  exact ⟨hq, hp⟩

theorem generateTests_cons (minDegree maxDegree : Int) (h0 : 0 ≤ minDegree)
    (h1 : minDegree ≤ maxDegree) (h2 : maxDegree ≤ 62) :
    ∃ rest, generateTests (maxDegree - minDegree + 1).toNat minDegree [] =
        Outcome.ok (testOfDegree minDegree :: rest) ∧
      (maxDegree ≤ 42 →
        ∀ t ∈ testOfDegree minDegree :: rest, 1 ≤ t.Size ∧ t.Size ≤ 2 ^ 42) := by
  obtain ⟨m, hm⟩ : ∃ m, (maxDegree - minDegree + 1).toNat = m + 1 :=
    ⟨(maxDegree - minDegree + 1).toNat - 1, by omega⟩
  have hg := generateTests_eq (maxDegree - minDegree + 1).toNat minDegree [] h0
    (by rw [Int.toNat_of_nonneg (by omega)]; omega)
  rw [List.nil_append, hm, List.range_succ_eq_map, List.map_cons] at hg
  rw [hm]
  refine ⟨_, by simpa using hg, ?_⟩
  intro h42 t ht
  rcases List.mem_cons.mp ht with rfl | ht
  · exact testOfDegree_size _ h0 (by omega)
  · obtain ⟨i, hi, rfl⟩ := List.mem_map.mp ht
    have hi' : i < m := List.mem_range.mp hi
    refine testOfDegree_size _ ?_ ?_
    · push_cast
      omega
    · push_cast
      omega

set_option maxRecDepth 20000 in
/-- C11, counterexample. A test of 0 elements (the one `main` builds for degree 64):
with `runs = 0` the run does not fail in the averaging division but in the warm-up call
of `runGPUMSM`, and with `runs = -1` it returns nothing, failing in the same call. A
test of `2^44` elements with `runs = 0`: the run fails in `make`, before any sample is
drawn and before the warm-up. -/
theorem runMSMTest_runs_not_positive_aborted :
    (runMSMTest (MSMTest.mk 64 0 "2^64") 0 false sampleWorld).1 =
      Outcome.panic Panic.deviceAllocation ∧
    (runMSMTest (MSMTest.mk 64 0 "2^64") (-1) false sampleWorld).1 =
      Outcome.panic Panic.deviceAllocation ∧
    (runMSMTest (MSMTest.mk 44 (2 ^ 44) "2^44") 0 false sampleWorld).1 =
      Outcome.panic Panic.makesliceLen ∧
    (runMSMTest (MSMTest.mk 44 (2 ^ 44) "2^44") 0 false sampleWorld).2.drawn = 0 ∧
    (runMSMTest (MSMTest.mk 44 (2 ^ 44) "2^44") 0 false sampleWorld).2.calls = [] ∧
    (runMSMTest (MSMTest.mk 44 (2 ^ 44) "2^44") (-1) false sampleWorld).1 =
      Outcome.panic Panic.makesliceLen := by
  refine ⟨by decide, by decide, by decide, by decide, by decide, by decide⟩

/-- C11, as amended. For a test of 1 to `2^42` elements whose two warm-up device
allocations succeed: `runMSMTest` fails in the averaging division, by zero, exactly
when `runs = 0`, and it then does so in the world reached once the samples are drawn
and the warm-up pass of both runners is done, no timed repetition having been made;
for `runs < 0` it makes no timed repetition either and returns zero averages and a nil
breakdown. `main` hands the `-runs` value over unchecked: with the backend loaded and
`0 ≤ minDegree ≤ maxDegree ≤ 62`, `minDegree ≤ 42`, `runs = 0` makes `main` fail in
the division of the first test when that test's warm-up allocations succeed, and,
when `maxDegree ≤ 42` and every device allocation succeeds, a negative `runs` makes it
print one row of zero averages per test. -/
theorem runMSMTest_runs_not_positive (test : MSMTest) (runs : Int) (detailed : Bool)
    (w : World) (hsize : 1 ≤ test.Size) (hmax : test.Size ≤ 2 ^ 42)
    (halloc : w.alloc w.allocs = EIcicleError.Success ∧
      w.alloc (w.allocs + 1) = EIcicleError.Success) :
    ((runMSMTest test runs detailed w).1 = Outcome.panic Panic.divideByZero ↔ runs = 0) ∧
    (runs = 0 →
      runMSMTest test runs detailed w =
        (Outcome.panic Panic.divideByZero, afterWarmUp w test.Size.toNat)) ∧
    (runs < 0 →
      runMSMTest test runs detailed w =
        (Outcome.ok (0, 0, none), afterWarmUp w test.Size.toNat)) ∧
    (afterWarmUp w test.Size.toNat).calls = w.calls ++
      [Call.runCPUMSM (sampleBases w test.Size.toNat) (sampleScalars w test.Size.toNat),
       Call.runGPUMSM (sampleBases w test.Size.toNat) (sampleScalars w test.Size.toNat)
         false] ∧
    (afterWarmUp w test.Size.toNat).drawn = w.drawn + 2 * test.Size.toNat ∧
    (∀ minDegree maxDegree : Int, w.backend = EIcicleError.Success → 0 ≤ minDegree →
      minDegree ≤ maxDegree → maxDegree ≤ 62 → minDegree ≤ 42 →
      main minDegree maxDegree 0 detailed w =
        (Outcome.panic Panic.divideByZero,
          afterWarmUp w (testOfDegree minDegree).Size.toNat) ∧
      (runs < 0 → maxDegree ≤ 42 → AllocationsSucceed w → ∃ tests w',
        generateTests (maxDegree - minDegree + 1).toNat minDegree [] = Outcome.ok tests ∧
        main minDegree maxDegree runs detailed w =
          (Outcome.ok (tests.map
            (fun t => { test := t, cpuTime := 0, gpuTime := 0, breakdown := none })), w'))) := by
  have hready : ∀ t : MSMTest, 1 ≤ t.Size →
      GPUReady (sampleBases w t.Size.toNat) (sampleScalars w t.Size.toNat) w := fun t ht =>
    ⟨by rw [sampleBases_length]; omega, halloc.1, by rw [sampleScalars_length]; omega,
      halloc.2, Or.inl (by rw [sampleScalars_length, sampleBases_length])⟩
  have hw := hready test hsize
  have hsize0 : 0 ≤ test.Size := by omega
  refine ⟨runMSMTest_divideByZero_iff test runs detailed w hsize0 hmax hw, ?_, ?_, rfl, rfl, ?_⟩
  · rintro rfl
    exact runMSMTest_zero_runs test detailed w hsize0 hmax hw
  · exact runMSMTest_negative_runs test runs detailed w hsize0 hmax hw
  · intro minDegree maxDegree hb h0 h1 h2 h3
    obtain ⟨rest, hg, hs⟩ := generateTests_cons minDegree maxDegree h0 h1 h2
    obtain ⟨t0, t1⟩ := testOfDegree_size minDegree h0 h3
    refine ⟨?_, ?_⟩
    · unfold main
      rw [if_neg (by simp [hb]), hg]
      simp only [resultLoop,
        runMSMTest_zero_runs (testOfDegree minDegree) detailed w (by omega) t1
          (hready _ t0)]
    · intro hr h42 ha
      obtain ⟨w', e⟩ := resultLoop_negative_runs runs detailed hr _ (hs h42) [] w ha
      refine ⟨_, w', hg, ?_⟩
      unfold main
      rw [if_neg (by simp [hb]), hg]
      simpa using e

theorem runMSMTest_runs_not_positive_witness :
    (1 : Int) ≤ (MSMTest.mk 3 8 "2^3").Size ∧ (MSMTest.mk 3 8 "2^3").Size ≤ 2 ^ 42 ∧
    (sampleWorld.alloc sampleWorld.allocs = EIcicleError.Success ∧
      sampleWorld.alloc (sampleWorld.allocs + 1) = EIcicleError.Success) ∧
    ((runMSMTest (MSMTest.mk 3 8 "2^3") 0 true sampleWorld).1 =
        Outcome.panic Panic.divideByZero ↔ (0 : Int) = 0) ∧
    ((0 : Int) = 0 →
      runMSMTest (MSMTest.mk 3 8 "2^3") 0 true sampleWorld =
        (Outcome.panic Panic.divideByZero,
          afterWarmUp sampleWorld (MSMTest.mk 3 8 "2^3").Size.toNat)) ∧
    ((0 : Int) < 0 →
      runMSMTest (MSMTest.mk 3 8 "2^3") 0 true sampleWorld =
        (Outcome.ok (0, 0, none), afterWarmUp sampleWorld (MSMTest.mk 3 8 "2^3").Size.toNat)) ∧
    (afterWarmUp sampleWorld (MSMTest.mk 3 8 "2^3").Size.toNat).calls = sampleWorld.calls ++
      [Call.runCPUMSM (sampleBases sampleWorld (MSMTest.mk 3 8 "2^3").Size.toNat)
         (sampleScalars sampleWorld (MSMTest.mk 3 8 "2^3").Size.toNat),
       Call.runGPUMSM (sampleBases sampleWorld (MSMTest.mk 3 8 "2^3").Size.toNat)
         (sampleScalars sampleWorld (MSMTest.mk 3 8 "2^3").Size.toNat) false] ∧
    (afterWarmUp sampleWorld (MSMTest.mk 3 8 "2^3").Size.toNat).drawn =
      sampleWorld.drawn + 2 * (MSMTest.mk 3 8 "2^3").Size.toNat ∧
    (∀ minDegree maxDegree : Int, sampleWorld.backend = EIcicleError.Success →
      0 ≤ minDegree → minDegree ≤ maxDegree → maxDegree ≤ 62 → minDegree ≤ 42 →
      main minDegree maxDegree 0 true sampleWorld =
        (Outcome.panic Panic.divideByZero,
          afterWarmUp sampleWorld (testOfDegree minDegree).Size.toNat) ∧
      ((0 : Int) < 0 → maxDegree ≤ 42 → AllocationsSucceed sampleWorld → ∃ tests w',
        generateTests (maxDegree - minDegree + 1).toNat minDegree [] = Outcome.ok tests ∧
        main minDegree maxDegree 0 true sampleWorld =
          (Outcome.ok (tests.map
            (fun t => { test := t, cpuTime := 0, gpuTime := 0, breakdown := none })), w'))) :=
  ⟨by decide, by decide, ⟨rfl, rfl⟩,
    runMSMTest_runs_not_positive (MSMTest.mk 3 8 "2^3") 0 true sampleWorld (by decide)
      (by decide) ⟨rfl, rfl⟩⟩

set_option maxRecDepth 20000 in
/-- The scenario of 8 elements in `sampleWorld` with `-runs 0` and with `-runs -2`:
the first fails after the two warm-up calls, which have drawn the 16 random scalars
of the sample set; the second returns zeros; `main` fails for `-runs 0` and prints
rows of zeros for `-runs -2`. -/
theorem runMSMTest_sampleWorld_no_runs :
    (runMSMTest (MSMTest.mk 3 8 "2^3") 0 true sampleWorld).1 =
      Outcome.panic Panic.divideByZero ∧
    (runMSMTest (MSMTest.mk 3 8 "2^3") 0 true sampleWorld).2.calls.length = 2 ∧
    (runMSMTest (MSMTest.mk 3 8 "2^3") 0 true sampleWorld).2.drawn = 16 ∧
    (runMSMTest (MSMTest.mk 3 8 "2^3") (-2) true sampleWorld).1 = Outcome.ok (0, 0, none) ∧
    (runMSMTest (MSMTest.mk 3 8 "2^3") (-2) true sampleWorld).2.calls.length = 2 ∧
    (main 3 4 0 true sampleWorld).1 = Outcome.panic Panic.divideByZero ∧
    (main 3 4 (-2) true sampleWorld).1 =
      Outcome.ok [Row.mk (MSMTest.mk 3 8 "2^3") 0 0 none,
        Row.mk (MSMTest.mk 4 16 "2^4") 0 0 none] := by
  refine ⟨by decide, by decide, by decide, by decide, by decide, by decide, by decide⟩

end MsmCompare
